import Mathlib

/-!
Verification development for the resilient memory gateway of the OpenMemory
repository.  The definitions below are shallow embeddings of the Python code in
`api/app/utils/memory.py` (LLMResponseInterceptor, ResilientMemoryClient) and
`api/app/mcp_server_optimized.py` (the MCP tool dispatcher, access filter,
audit logger and SSE session handler).  Python dictionaries, lists, strings,
booleans, numbers and None are modelled by the inductive type `MVal`; the
standard-library JSON codec `json.loads` / `json.dumps` is modelled by an
executable JSON grammar over `MVal`.
-/

namespace Mem0

/-- Model of a Python value as it flows through the gateway: `None`, booleans,
numbers (kept as their JSON lexeme), strings, lists and (insertion-ordered)
dictionaries with string keys. -/
inductive MVal where
  | pynone : MVal
  | pybool : Bool → MVal
  | pynum : String → MVal
  | pystr : String → MVal
  | pylist : List MVal → MVal
  | pydict : List (String × MVal) → MVal

/-- First binding of a key in an insertion-ordered dictionary.  `dictSet`
below never creates duplicate keys, so the first binding is the binding. -/
def dictGet (d : List (String × MVal)) (k : String) : Option MVal :=
  match d with
  | [] => none
  | (k2, v) :: rest => if k2 = k then some v else dictGet rest k

/-- Python dictionary assignment `d[k] = v`: replace the binding in place when
the key exists, append at the end otherwise. -/
def dictSet (d : List (String × MVal)) (k : String) (v : MVal) : List (String × MVal) :=
  match d with
  | [] => [(k, v)]
  | (k2, w) :: rest => if k2 = k then (k, v) :: rest else (k2, w) :: dictSet rest k v

/-- Python `d.update(u)` / `{**d, **u}`: fold the update entries into `d`. -/
def dictUpdate (d u : List (String × MVal)) : List (String × MVal) :=
  u.foldl (fun acc kv => dictSet acc kv.1 kv.2) d

/-- Python `k in d` for a dictionary. -/
def hasKey (d : List (String × MVal)) (k : String) : Bool :=
  (dictGet d k).isSome

/-- Whether all mantissa digits of a JSON number lexeme are zero; a lexeme
with no digit at all (`NaN`, `Infinity`) counts as nonzero. -/
def numIsZero (s : String) : Bool :=
  let mantissa := s.data.takeWhile (fun c => c ≠ 'e' ∧ c ≠ 'E')
  let digits := mantissa.filter Char.isDigit
  !digits.isEmpty && digits.all (fun c => c = '0')

/-- Python truthiness of an `MVal`. -/
def truthy : MVal → Bool
  | .pynone => false
  | .pybool b => b
  | .pynum s => !numIsZero s
  | .pystr s => !(s = "")
  | .pylist l => !l.isEmpty
  | .pydict d => !d.isEmpty

/-- Python `pat in s` on a character list (substring containment). -/
def strContainsAux (pat : List Char) : List Char → Bool
  | [] => pat.isEmpty
  | c :: rest => pat.isPrefixOf (c :: rest) || strContainsAux pat rest

/-- Python substring test `pat in s`. -/
def strContains (s pat : String) : Bool :=
  strContainsAux pat.data s.data

/-- The Python `str.strip()` whitespace set. -/
def isPyWs (c : Char) : Bool :=
  c = ' ' || c = '\t' || c = '\n' || c = '\r' || c = Char.ofNat 11 || c = Char.ofNat 12

/-- Python `s.strip()`. -/
def strTrim (s : String) : String :=
  String.mk (((s.data.dropWhile isPyWs).reverse.dropWhile isPyWs).reverse)

/-- Python `s.startswith(pre)`. -/
def strStartsWith (s pre : String) : Bool :=
  pre.data.isPrefixOf s.data

/-- Python `s.endswith(suf)`. -/
def strEndsWith (s suf : String) : Bool :=
  suf.data.isSuffixOf s.data

/-- Python `s[n:]`. -/
def strDrop (s : String) (n : Nat) : String :=
  String.mk (s.data.drop n)

/-- Python `s[:-n]` for positive `n`. -/
def strDropRight (s : String) (n : Nat) : String :=
  String.mk (s.data.take (s.data.length - n))

/-- Python `s[:n]`. -/
def strTake (s : String) (n : Nat) : String :=
  String.mk (s.data.take n)

/-- JSON insignificant whitespace, as accepted by Python `json.loads`. -/
def isJsonWs (c : Char) : Bool :=
  c = ' ' || c = '\t' || c = '\n' || c = '\r'

/-- Drop leading JSON whitespace. -/
def skipWs : List Char → List Char
  | [] => []
  | c :: cs => if isJsonWs c then skipWs cs else c :: cs

/-- Hexadecimal digit test. -/
def isHexDig (c : Char) : Bool :=
  c.isDigit || ('a' ≤ c && c ≤ 'f') || ('A' ≤ c && c ≤ 'F')

/-- Hexadecimal digit value. -/
def hexDigitVal (c : Char) : Nat :=
  if c.isDigit then c.toNat - 48
  else if 'a' ≤ c && c ≤ 'f' then c.toNat - 87
  else if 'A' ≤ c && c ≤ 'F' then c.toNat - 55
  else 0

/-- JSON short escape characters. -/
def escChar (c : Char) : Option Char :=
  if c = '"' then some '"'
  else if c = '\\' then some '\\'
  else if c = '/' then some '/'
  else if c = 'b' then some (Char.ofNat 8)
  else if c = 'f' then some (Char.ofNat 12)
  else if c = 'n' then some '\n'
  else if c = 'r' then some '\r'
  else if c = 't' then some '\t'
  else none

/-- Parse the body of a JSON string literal (opening quote already consumed).
Control characters are rejected, matching the strict mode of `json.loads`. -/
def parseStringLit : Nat → List Char → Option (List Char × List Char)
  | 0, _ => none
  | _, [] => none
  | fuel + 1, c :: t =>
    if c = '"' then some ([], t)
    else if c.toNat < 32 then none
    else if c = '\\' then
      match t with
      | [] => none
      | e :: t2 =>
        if e = 'u' then
          match t2 with
          | h1 :: h2 :: h3 :: h4 :: t3 =>
            if isHexDig h1 && isHexDig h2 && isHexDig h3 && isHexDig h4 then
              match parseStringLit fuel t3 with
              | some (s, r) =>
                some (Char.ofNat (((hexDigitVal h1 * 16 + hexDigitVal h2) * 16
                  + hexDigitVal h3) * 16 + hexDigitVal h4) :: s, r)
              | none => none
            else none
          | _ => none
        else
          match escChar e with
          | some ch =>
            match parseStringLit fuel t2 with
            | some (s, r) => some (ch :: s, r)
            | none => none
          | none => none
    else
      match parseStringLit fuel t with
      | some (s, r) => some (c :: s, r)
      | none => none

/-- Optional fractional part of a JSON number. -/
def parseFrac (cs : List Char) : List Char × List Char :=
  match cs with
  | '.' :: t =>
    let d := t.span Char.isDigit
    if d.1.isEmpty then ([], cs) else ('.' :: d.1, d.2)
  | _ => ([], cs)

/-- Optional exponent part of a JSON number. -/
def parseExp (cs : List Char) : List Char × List Char :=
  match cs with
  | c :: t =>
    if c = 'e' || c = 'E' then
      match t with
      | s :: t2 =>
        if s = '+' || s = '-' then
          let d := t2.span Char.isDigit
          if d.1.isEmpty then ([], cs) else (c :: s :: d.1, d.2)
        else
          let d := t.span Char.isDigit
          if d.1.isEmpty then ([], cs) else (c :: d.1, d.2)
      | [] => ([], cs)
    else ([], cs)
  | [] => ([], cs)

/-- JSON number lexeme, following the grammar used by the Python scanner. -/
def parseNumberLit (cs : List Char) : Option (List Char × List Char) :=
  let sp : List Char × List Char :=
    match cs with
    | '-' :: t => (['-'], t)
    | _ => ([], cs)
  match sp.2 with
  | [] => none
  | c :: t =>
    if c = '0' then
      let f := parseFrac t
      let e := parseExp f.2
      some (sp.1 ++ ['0'] ++ f.1 ++ e.1, e.2)
    else if c.isDigit then
      let d := (c :: t).span Char.isDigit
      let f := parseFrac d.2
      let e := parseExp f.2
      some (sp.1 ++ d.1 ++ f.1 ++ e.1, e.2)
    else none

/-- Turn the member list of a JSON object into a Python dictionary: later
duplicate keys overwrite in place, as `json.loads` does. -/
def mkDict (ms : List (String × MVal)) : List (String × MVal) :=
  ms.foldl (fun acc kv => dictSet acc kv.1 kv.2) []

mutual

/-- Recursive-descent JSON value parser modelling Python `json.loads`
(including its acceptance of `NaN` and `Infinity`). -/
def parseVal : Nat → List Char → Option (MVal × List Char)
  | 0, _ => none
  | fuel + 1, cs =>
    match skipWs cs with
    | [] => none
    | c :: t =>
      if c = '{' then
        match parseObjStart fuel t with
        | some (d, r) => some (.pydict (mkDict d), r)
        | none => none
      else if c = '[' then
        match parseArrStart fuel t with
        | some (l, r) => some (.pylist l, r)
        | none => none
      else if c = '"' then
        match parseStringLit fuel t with
        | some (s, r) => some (.pystr (String.mk s), r)
        | none => none
      else if ['t', 'r', 'u', 'e'].isPrefixOf (c :: t) then
        some (.pybool true, (c :: t).drop 4)
      else if ['f', 'a', 'l', 's', 'e'].isPrefixOf (c :: t) then
        some (.pybool false, (c :: t).drop 5)
      else if ['n', 'u', 'l', 'l'].isPrefixOf (c :: t) then
        some (.pynone, (c :: t).drop 4)
      else if ['N', 'a', 'N'].isPrefixOf (c :: t) then
        some (.pynum "NaN", (c :: t).drop 3)
      else if ['I', 'n', 'f', 'i', 'n', 'i', 't', 'y'].isPrefixOf (c :: t) then
        some (.pynum "Infinity", (c :: t).drop 8)
      else if ['-', 'I', 'n', 'f', 'i', 'n', 'i', 't', 'y'].isPrefixOf (c :: t) then
        some (.pynum "-Infinity", (c :: t).drop 9)
      else
        match parseNumberLit (c :: t) with
        | some (lex, r) => some (.pynum (String.mk lex), r)
        | none => none

/-- Elements of a JSON array, right after the opening bracket. -/
def parseArrStart : Nat → List Char → Option (List MVal × List Char)
  | 0, _ => none
  | fuel + 1, cs =>
    match skipWs cs with
    | ']' :: r => some ([], r)
    | cs2 =>
      match parseVal fuel cs2 with
      | some (v, r) =>
        match parseArrRest fuel r with
        | some (vs, r2) => some (v :: vs, r2)
        | none => none
      | none => none

/-- Elements of a JSON array after the first element. -/
def parseArrRest : Nat → List Char → Option (List MVal × List Char)
  | 0, _ => none
  | fuel + 1, cs =>
    match skipWs cs with
    | ']' :: r => some ([], r)
    | ',' :: r =>
      match parseVal fuel r with
      | some (v, r2) =>
        match parseArrRest fuel r2 with
        | some (vs, r3) => some (v :: vs, r3)
        | none => none
      | none => none
    | _ => none

/-- Members of a JSON object, right after the opening brace. -/
def parseObjStart : Nat → List Char → Option (List (String × MVal) × List Char)
  | 0, _ => none
  | fuel + 1, cs =>
    match skipWs cs with
    | '}' :: r => some ([], r)
    | cs2 =>
      match parseMember fuel cs2 with
      | some (kv, r) =>
        match parseObjRest fuel r with
        | some (ms, r2) => some (kv :: ms, r2)
        | none => none
      | none => none

/-- Members of a JSON object after the first member. -/
def parseObjRest : Nat → List Char → Option (List (String × MVal) × List Char)
  | 0, _ => none
  | fuel + 1, cs =>
    match skipWs cs with
    | '}' :: r => some ([], r)
    | ',' :: r =>
      match parseMember fuel r with
      | some (kv, r2) =>
        match parseObjRest fuel r2 with
        | some (ms, r3) => some (kv :: ms, r3)
        | none => none
      | none => none
    | _ => none

/-- One `"key": value` member of a JSON object. -/
def parseMember : Nat → List Char → Option ((String × MVal) × List Char)
  | 0, _ => none
  | fuel + 1, cs =>
    match skipWs cs with
    | '"' :: t =>
      match parseStringLit fuel t with
      | some (k, r) =>
        match skipWs r with
        | ':' :: r2 =>
          match parseVal fuel r2 with
          | some (v, r3) => some ((String.mk k, v), r3)
          | none => none
        | _ => none
      | none => none
    | _ => none

end

/-- Model of Python `json.loads`: parse one JSON value and require only
whitespace after it. -/
def parseJson (s : String) : Option MVal :=
  match parseVal (2 * s.data.length + 8) s.data with
  | some (v, r) => if (skipWs r).isEmpty then some v else none
  | none => none

/-- A string is valid JSON when `json.loads` accepts it. -/
def jsonValid (s : String) : Bool :=
  (parseJson s).isSome

/-- Lower-case hexadecimal character of a value below sixteen. -/
def lowHexChar (n : Nat) : Char :=
  Char.ofNat (if n < 10 then 48 + n else 87 + n)

/-- Escaping of one character inside a serialized JSON string. -/
def jsonQuoteChar (c : Char) : List Char :=
  if c = '"' then ['\\', '"']
  else if c = '\\' then ['\\', '\\']
  else if c = '\n' then ['\\', 'n']
  else if c = '\r' then ['\\', 'r']
  else if c = '\t' then ['\\', 't']
  else if c.toNat < 32 then
    '\\' :: 'u' :: '0' :: '0' :: lowHexChar (c.toNat / 16) :: [lowHexChar (c.toNat % 16)]
  else [c]

/-- Serialized JSON string literal. -/
def jsonQuote (s : String) : String :=
  "\"" ++ String.mk (s.data.foldr (fun c acc => jsonQuoteChar c ++ acc) []) ++ "\""

mutual

/-- Model of Python `json.dumps` on an `MVal` (compact separators; the
`indent=2` pretty-printing of the source only inserts layout and is not
observed by any property below). -/
def dumps : MVal → String
  | .pynone => "null"
  | .pybool b => if b then "true" else "false"
  | .pynum s => s
  | .pystr s => jsonQuote s
  | .pylist l => "[" ++ dumpsElems l ++ "]"
  | .pydict d => "\x7b" ++ dumpsMembers d ++ "\x7d"

/-- Comma-separated serialization of array elements. -/
def dumpsElems : List MVal → String
  | [] => ""
  | [v] => dumps v
  | v :: w :: rest => dumps v ++ ", " ++ dumpsElems (w :: rest)

/-- Comma-separated serialization of object members. -/
def dumpsMembers : List (String × MVal) → String
  | [] => ""
  | [(k, v)] => jsonQuote k ++ ": " ++ dumps v
  | (k, v) :: m :: rest => jsonQuote k ++ ": " ++ dumps v ++ ", " ++ dumpsMembers (m :: rest)

end

/-- Python `str()` rendering, used by the tool layer for non-dict backend
replies; container rendering is approximated by the JSON form. -/
def pyStr : MVal → String
  | .pynone => "None"
  | .pybool b => if b then "True" else "False"
  | .pynum s => s
  | .pystr s => s
  | .pylist l => dumps (.pylist l)
  | .pydict d => dumps (.pydict d)

end Mem0

namespace Mem0

/-! ## LLMResponseInterceptor (memory.py lines 48-112) -/

/-- The canonical empty result string returned by the repair function. -/
def canonicalEmpty : String := "\x7b\"facts\": []\x7d"

/-- Removal of markdown fence markers, in the order performed by
`fix_llm_response`: a leading "```json", then a leading "```", then a
trailing "```". -/
def stripFences (s : String) : String :=
  let s1 := if strStartsWith s "```json" then strDrop s 7 else s
  let s2 := if strStartsWith s1 "```" then strDrop s1 3 else s1
  if strEndsWith s2 "```" then strDropRight s2 3 else s2

/-- The content `fix_llm_response` works on after its initial strip, fence
removal and second strip. -/
def cleaned (s : String) : String :=
  strTrim (stripFences (strTrim s))

/-- Python `s.replace(CHR(34), BSL + CHR(34))`: escape every double quote. -/
def escapeQuotes (s : String) : String :=
  String.mk (s.data.foldr (fun c acc => if c = '"' then '\\' :: '"' :: acc else c :: acc) [])

/-- The rewrapping applied when the first parse fails: content that does not
start with a brace is either wrapped as a facts array (when it starts with a
bracket) or escaped into a single-fact wrapper. -/
def wrapCandidate (t : String) : String :=
  if !(strStartsWith t "\x7b") then
    (if strStartsWith t "[" then "\x7b\"facts\": " ++ t ++ "\x7d"
     else "\x7b\"facts\": [\"" ++ escapeQuotes t ++ "\"]\x7d")
  else t

/-- Model of `LLMResponseInterceptor.fix_llm_response`: repair a raw LLM reply into a
JSON string.  Empty or whitespace input (also after fence removal) yields the
canonical empty result; content that already parses is returned unchanged;
otherwise a rewrapped candidate is tried once, with the canonical empty
result as the final fallback. -/
def fix_llm_response (s : String) : String :=
  if strTrim s = "" then canonicalEmpty
  else if cleaned s = "" then canonicalEmpty
  else if jsonValid (cleaned s) then cleaned s
  else if jsonValid (wrapCandidate (cleaned s)) then wrapCandidate (cleaned s)
  else canonicalEmpty

/-! ## ResilientMemoryClient (memory.py lines 115-320) -/

/-- Result of one raw backend call: a returned value or a raised exception
carrying its message string. -/
inductive Outcome where
  | ok : MVal → Outcome
  | err : String → Outcome

/-- A raw backend `add` method: text plus keyword arguments to an outcome.
The memory engine is external, so it is kept fully abstract. -/
def AddBackend : Type :=
  String → List (String × MVal) → Outcome

/-- One recorded invocation of the raw backend `add`. -/
structure AddCall where
  text : String
  kwargs : List (String × MVal)

/-- The parse-failure signature set of `ResilientMemoryClient.add`. -/
def jsonErrorKeywords : List String :=
  ["Expecting value", "JSON", "line 1 column 1", "Unterminated string",
   "Invalid control character", "json"]

/-- Classification of an exception message as a JSON parsing error. -/
def isJsonError (msg : String) : Bool :=
  jsonErrorKeywords.any (fun k => strContains msg k)

/-- Shape normalization applied to dict results of `add`: insert a `results`
key and then a `relations` key when absent. -/
def normalizeAddResult (d : List (String × MVal)) : List (String × MVal) :=
  let d1 := if hasKey d "results" then d else dictSet d "results" (.pylist [])
  if hasKey d1 "relations" then d1
  else dictSet d1 "relations"
    (.pydict [("added_entities", .pylist []), ("deleted_entities", .pylist [])])

/-- Fallback strategy 2: retry with inference disabled. -/
def fb1Kwargs (kwargs : List (String × MVal)) : List (String × MVal) :=
  dictUpdate kwargs [("infer", .pybool false)]

/-- Fallback strategy 3: retry with minimal metadata. -/
def fb2Kwargs (kwargs : List (String × MVal)) : List (String × MVal) :=
  dictUpdate kwargs [("metadata", .pydict [("source", .pystr "resilient_fallback")])]

/-- The dict-unpacking of the caller metadata performed while the strategy
list is built: `kwargs.get("metadata", EMPTY)` gives the empty dict for an
absent key, a dict value is unpacked, and any other value makes the
unpacking raise TypeError (modelled by `none`). -/
def callerMetadata (kwargs : List (String × MVal)) : Option (List (String × MVal)) :=
  match dictGet kwargs "metadata" with
  | none => some []
  | some (.pydict d) => some d
  | some _ => none

/-- The message of the TypeError raised by unpacking a non-mapping; CPython
prefixes the concrete type name, which this model does not track. -/
def notMappingErr : String := "TypeError: object is not a mapping"

/-- Fallback strategy 4: inference re-enabled plus a retry marker merged into
the already-unpacked caller metadata `md`. -/
def fb3Kwargs (kwargs md : List (String × MVal)) : List (String × MVal) :=
  dictUpdate kwargs
    [("infer", .pybool true),
     ("metadata", .pydict (dictSet md "retry_attempt" (.pybool true)))]

/-- Fallback strategy 5 keyword arguments: inference re-enabled. -/
def fb4Kwargs (kwargs : List (String × MVal)) : List (String × MVal) :=
  dictUpdate kwargs [("infer", .pybool true)]

/-- Fallback strategy 5 text modifier: strip, truncated to 200 characters
when the original text is longer than 200 characters. -/
def fb4Text (t : String) : String :=
  if t.length > 200 then strTake (strTrim t) 200 else strTrim t

/-- Keyword arguments of the final emergency direct-storage attempt. -/
def emergencyKwargs (text : String) (kwargs : List (String × MVal)) : List (String × MVal) :=
  [("user_id", (dictGet kwargs "user_id").getD .pynone),
   ("infer", .pybool false),
   ("metadata", .pydict
     [("emergency_storage", .pybool true), ("original_text", .pystr (strTake text 100))])]

/-- The ultimate fallback returned when every storage strategy failed:
canonical empty result plus diagnostic payload. -/
def diagnosticResult (text : String) (kwargs : List (String × MVal)) : MVal :=
  .pydict
    [("results", .pylist []),
     ("relations", .pydict [("added_entities", .pylist []), ("deleted_entities", .pylist [])]),
     ("diagnostic", .pydict
       [("all_strategies_failed", .pybool true),
        ("original_text_length", .pynum (toString text.length)),
        ("kwargs_keys", .pylist (kwargs.map (fun p => MVal.pystr p.1)))])]

/-- Dictionary test used by the fallback loop. -/
def isDictV : MVal → Bool
  | .pydict _ => true
  | _ => false

/-- One fallback attempt: succeed only with a truthy dict result, which is
then shape-normalized. -/
def tryFallback (backend : AddBackend) (t : String) (kw : List (String × MVal)) : Option MVal :=
  match backend t kw with
  | .err _ => none
  | .ok v =>
    match v with
    | .pydict d => if truthy (.pydict d) then some (.pydict (normalizeAddResult d)) else none
    | _ => none

/-- The emergency attempt: succeed with any truthy result, returned without
normalization. -/
def tryEmergency (backend : AddBackend) (text : String) (kwargs : List (String × MVal)) : Option MVal :=
  match backend text (emergencyKwargs text kwargs) with
  | .err _ => none
  | .ok v => if truthy v then some v else none

/-- The enhanced fallback chain of `ResilientMemoryClient.add`.  The strategy
list is built eagerly, outside any try: evaluating strategy 4 unpacks the
caller metadata, so a non-mapping metadata value raises TypeError out of the
whole call before any fallback attempt.  Otherwise strategies 2-5, the
emergency attempt and the diagnostic ultimate fallback run in order,
instrumented with the list of raw backend calls made. -/
def fallbackChain (backend : AddBackend) (text : String) (kwargs : List (String × MVal))
    (calls : List AddCall) : Outcome × List AddCall :=
  match callerMetadata kwargs with
  | none => (.err notMappingErr, calls)
  | some md =>
    match tryFallback backend text (fb1Kwargs kwargs) with
    | some v => (.ok v, calls ++ [⟨text, fb1Kwargs kwargs⟩])
    | none =>
      match tryFallback backend text (fb2Kwargs kwargs) with
      | some v => (.ok v, calls ++ [⟨text, fb1Kwargs kwargs⟩, ⟨text, fb2Kwargs kwargs⟩])
      | none =>
        match tryFallback backend text (fb3Kwargs kwargs md) with
        | some v => (.ok v, calls ++
            [⟨text, fb1Kwargs kwargs⟩, ⟨text, fb2Kwargs kwargs⟩, ⟨text, fb3Kwargs kwargs md⟩])
        | none =>
          match tryFallback backend (fb4Text text) (fb4Kwargs kwargs) with
          | some v => (.ok v, calls ++
              [⟨text, fb1Kwargs kwargs⟩, ⟨text, fb2Kwargs kwargs⟩, ⟨text, fb3Kwargs kwargs md⟩,
               ⟨fb4Text text, fb4Kwargs kwargs⟩])
          | none =>
            match tryEmergency backend text kwargs with
            | some v => (.ok v, calls ++
                [⟨text, fb1Kwargs kwargs⟩, ⟨text, fb2Kwargs kwargs⟩, ⟨text, fb3Kwargs kwargs md⟩,
                 ⟨fb4Text text, fb4Kwargs kwargs⟩, ⟨text, emergencyKwargs text kwargs⟩])
            | none => (.ok (diagnosticResult text kwargs), calls ++
                [⟨text, fb1Kwargs kwargs⟩, ⟨text, fb2Kwargs kwargs⟩, ⟨text, fb3Kwargs kwargs md⟩,
                 ⟨fb4Text text, fb4Kwargs kwargs⟩, ⟨text, emergencyKwargs text kwargs⟩])

/-- The exception handler of the direct attempt in `ResilientMemoryClient.add`:
JSON-classified failures enter the fallback chain, any other message is
re-raised unchanged. -/
def addExceptHandler (backend : AddBackend) (text : String) (kwargs : List (String × MVal))
    (msg : String) (calls : List AddCall) : Outcome × List AddCall :=
  if isJsonError msg then fallbackChain backend text kwargs calls
  else (.err msg, calls)

namespace ResilientMemoryClient

/-- Model of `ResilientMemoryClient.add`, instrumented with the list of raw backend
calls made.  A dict reply is shape-normalized and returned; a non-dict,
non-None reply is returned as is; a None reply raises
"Memory client returned None"; a raised exception goes through the JSON
classification and, when classified, the fallback chain. -/
def add (backend : AddBackend) (text : String) (kwargs : List (String × MVal)) :
    Outcome × List AddCall :=
  match backend text kwargs with
  | .ok v =>
    match v with
    | .pydict d => (.ok (.pydict (normalizeAddResult d)), [⟨text, kwargs⟩])
    | .pynone => addExceptHandler backend text kwargs "Memory client returned None" [⟨text, kwargs⟩]
    | other => (.ok other, [⟨text, kwargs⟩])
  | .err msg => addExceptHandler backend text kwargs msg [⟨text, kwargs⟩]

/-- The canonical empty shaped result used by the read-operation handlers. -/
def emptyShaped : MVal :=
  .pydict [("results", .pylist []),
           ("relations", .pydict [("added_entities", .pylist []), ("deleted_entities", .pylist [])])]

/-- Model of `ResilientMemoryClient.search`: one direct attempt, any exception is
absorbed into the canonical empty shaped result; a successful reply is
returned unchanged. -/
def search (backend : List (String × MVal) → Outcome) (kwargs : List (String × MVal)) : MVal :=
  match backend kwargs with
  | .ok v => v
  | .err _ => emptyShaped

/-- Model of `ResilientMemoryClient.get_all`: same policy as `search`. -/
def get_all (backend : List (String × MVal) → Outcome) (kwargs : List (String × MVal)) : MVal :=
  match backend kwargs with
  | .ok v => v
  | .err _ => emptyShaped

/-- Model of `ResilientMemoryClient.delete_all`: one direct attempt; an exception is
absorbed into a dict holding only an error message. -/
def delete_all (backend : List (String × MVal) → Outcome) (kwargs : List (String × MVal)) : MVal :=
  match backend kwargs with
  | .ok v => v
  | .err e => .pydict [("message", .pystr ("Error during deletion: " ++ e))]

/-- The `__getattr__` delegation: every other operation (get, update, delete,
batch_update, batch_delete, history, ...) is forwarded to the wrapped client
unchanged, with no error absorption and no shape normalization. -/
def delegate (method : List (String × MVal) → Outcome) (kwargs : List (String × MVal)) : Outcome :=
  method kwargs

end ResilientMemoryClient

end Mem0

namespace Mem0

/-! ## UUID parsing (Python `uuid.UUID(hex=...)`) -/

/-- Python `s.replace(pat, EMPTY)`: drop every non-overlapping occurrence of
`pat`, scanning left to right (fuelled by the input length). -/
def replaceDrop (pat : List Char) : Nat → List Char → List Char
  | 0, cs => cs
  | _, [] => []
  | fuel + 1, c :: rest =>
    if !pat.isEmpty && pat.isPrefixOf (c :: rest) then
      replaceDrop pat fuel ((c :: rest).drop pat.length)
    else c :: replaceDrop pat fuel rest

/-- Remove every occurrence of `pat` from `s`. -/
def removeAll (s pat : String) : String :=
  String.mk (replaceDrop pat.data s.data.length s.data)

/-- Characters stripped from both ends by the UUID constructor. -/
def isBraceChar (c : Char) : Bool :=
  c = '{' || c = '}'

/-- Strip brace characters from both ends of a character list. -/
def stripBraceEnds (cs : List Char) : List Char :=
  ((cs.dropWhile isBraceChar).reverse.dropWhile isBraceChar).reverse

/-- Value of a hexadecimal digit string. -/
def hexToNat (cs : List Char) : Nat :=
  cs.foldl (fun acc c => acc * 16 + hexDigitVal c) 0

/-- Model of Python `uuid.UUID(string)`: drop `urn:` and `uuid:` markers,
strip surrounding braces, drop hyphens, then require exactly 32 hexadecimal
digits.  `none` models the `ValueError` raised on a badly formed string. -/
def parseUUID (s : String) : Option Nat :=
  let t := removeAll (removeAll s "urn:") "uuid:"
  let u := (stripBraceEnds t.data).filter (fun c => c ≠ '-')
  if u.length = 32 && u.all isHexDig then some (hexToNat u) else none

/-! ## Shadow data model and audit log (mcp_server_optimized.py)

The relational models (`app/models.py`), the session factory
(`app/database.py`) and the authorization predicate
(`app/utils/permissions.py`) are repository code that is not part of the
analysed sources; their shapes below are modelled from the spec. -/

/-- Modelled from the spec: lifecycle state of a shadow memory record
(`MemoryRecord.lifecycle state ∈ {active, paused, deleted}` in §3; the code
references `MemoryState.active` and `MemoryState.deleted`). -/
inductive MemState where
  | active : MemState
  | paused : MemState
  | deleted : MemState
deriving DecidableEq

/-- Modelled from the spec: the local shadow projection kept by the gateway for one
memory record (owner user, owning application, content, lifecycle state,
deletion timestamp). -/
structure MemRec where
  userPk : Nat
  appPk : Nat
  content : String
  state : MemState
  deletedAt : Option Nat

/-- Modelled from the spec: one append-only access event
(`AccessEvent` in §3: memory id, application id, access type, metadata). -/
structure AuditEvent where
  memId : Nat
  appPk : Nat
  accessType : String
  meta : MVal

/-- Modelled from the spec: one `MemoryStatusHistory` entry written next to a
state transition of a shadow record. -/
structure HistEvent where
  memId : Nat
  changedBy : Nat
  oldState : Option MemState
  newState : MemState

/-- The persistent store visible to one tool call: user resolution for the
access filter, the shadow `Memory` table keyed by UUID value, the audit and
history tables, the external authorization predicate
(`check_memory_access_permissions`, kept abstract), and whether the audit
commit performed by `log_memory_access` raises. -/
structure DbState where
  userResolves : String → Bool
  shadow : List (Nat × MemRec)
  audits : List AuditEvent
  histEvents : List HistEvent
  access : Nat → MemRec → Nat → Bool
  auditCommitFails : Bool

/-- Model of `db.query(Memory).filter(Memory.id == u).first()`. -/
def lookupShadow (db : DbState) (u : Nat) : Option MemRec :=
  (db.shadow.find? (fun p => p.1 = u)).map (fun p => p.2)

/-- Replace the shadow record stored under `u`. -/
def setShadow (db : DbState) (u : Nat) (rec : MemRec) : DbState :=
  { db with shadow := db.shadow.map (fun p => if p.1 = u then (u, rec) else p) }

/-- Model of `log_memory_access`: append one access event per memory id, then commit.
A failing commit raises (modelled by `Except.error`) and, through the
session rollback, leaves the store unchanged. -/
def log_memory_access (db : DbState) (ids : List Nat) (appPk : Nat) (ty : String)
    (meta : MVal) : Except String DbState :=
  if db.auditCommitFails then .error "audit commit failed"
  else .ok { db with audits := db.audits ++ ids.map (fun i => ⟨i, appPk, ty, meta⟩) }

/-! ## filter_accessible_memories (mcp_server_optimized.py lines 80-125) -/

/-- Python membership test `"id" in x` for the non-dict candidates met by the
results-envelope loop: substring test on strings, equality-based membership
on lists, a `TypeError` (modelled as `none`) otherwise. -/
def pyInId (needle : String) : MVal → Option Bool
  | .pystr s => some (strContains s needle)
  | .pylist l => some (l.any (fun x => match x with | .pystr s => s = needle | _ => false))
  | _ => none

/-- The per-candidate keep decision: the shadow lookup by id followed by the
external authorization check (`memory_obj and
check_memory_access_permissions(db, memory_obj, app_id)`). -/
def shadowKeep (db : DbState) (u : Nat) (appPk : Nat) : Bool :=
  match lookupShadow db u with
  | some rec => db.access u rec appPk
  | none => false

/-- The per-candidate loop shared by both branches of
`filter_accessible_memories`.  `requireDict` is true in the flat-list branch,
whose `isinstance(memory, dict)` guard silently skips non-dict entries; the
results-envelope branch has no such guard, so a non-dict entry there evaluates
`"id" in entry` and indexing, whose `TypeError` aborts the whole batch
(`Except.error`, turned into empty outputs by the enclosing handler).  A
candidate id that is not a string makes `uuid.UUID` raise a non-ValueError,
aborting likewise; an unparsable string id is skipped silently. -/
def filterItems (db : DbState) (appPk : Nat) (requireDict : Bool) :
    List MVal → Except Unit (List MVal × List Nat)
  | [] => .ok ([], [])
  | m :: rest =>
    match m with
    | .pydict d =>
      match dictGet d "id" with
      | some (.pystr s) =>
        match parseUUID s with
        | none => filterItems db appPk requireDict rest
        | some u =>
          match filterItems db appPk requireDict rest with
          | .ok (a, ids) => .ok (if shadowKeep db u appPk then (m :: a, u :: ids) else (a, ids))
          | .error e => .error e
      | some _ => .error ()
      | none => filterItems db appPk requireDict rest
    | other =>
      if requireDict then filterItems db appPk requireDict rest
      else
        match pyInId "id" other with
        | some true => .error ()
        | some false => filterItems db appPk requireDict rest
        | none => .error ()

/-- Model of `filter_accessible_memories`: empty outputs for falsy input or an
unresolved caller, otherwise the per-candidate loop over either the
`results` envelope list or the flat list; any loop exception collapses to
empty outputs. -/
def filter_accessible_memories (db : DbState) (memories : MVal) (uid : String)
    (appPk : Nat) : List MVal × List Nat :=
  if !truthy memories then ([], [])
  else if !db.userResolves uid then ([], [])
  else
    match memories with
    | .pydict d =>
      match dictGet d "results" with
      | some (.pylist l) =>
        match filterItems db appPk false l with
        | .ok r => r
        | .error _ => ([], [])
      | some _ => ([], [])
      | none => ([], [])
    | .pylist l =>
      match filterItems db appPk true l with
      | .ok r => r
      | .error _ => ([], [])
    | _ => ([], [])

/-- The string id carried by one dict-shaped candidate, if any. -/
def itemIdStr : MVal → Option String
  | .pydict d =>
    match dictGet d "id" with
    | some (.pystr s) => some s
    | _ => none
  | _ => none

/-- The id strings carried by the candidate collection, for stating the
subset invariant: the `id` field of each dict-shaped candidate in either
accepted input shape. -/
def candidateIdStrs (memories : MVal) : List String :=
  match memories with
  | .pydict d =>
    match dictGet d "results" with
    | some (.pylist l) => l.filterMap itemIdStr
    | _ => []
  | .pylist l => l.filterMap itemIdStr
  | _ => []

end Mem0

namespace Mem0

/-! ## Tool dispatcher (mcp_server_optimized.py tools) -/

/-- The operation surface of the memory client as used by the tools.  Each
method maps its arguments to a returned value or a raised exception; the
engine behind it is external and stays abstract. -/
structure Client where
  addM : String → String → MVal → Bool → Outcome
  searchM : String → String → Nat → Option MVal → Outcome
  getAllM : String → Outcome
  updateM : String → String → String → MVal → Outcome
  deleteM : String → String → Outcome
  deleteAllM : String → Outcome
  batchUpdateM : MVal → String → Outcome
  batchDeleteM : MVal → String → Outcome

/-- One recorded backend invocation made by a tool, with its arguments. -/
inductive BCall where
  | addC : String → String → MVal → Bool → BCall
  | searchC : String → String → Nat → Option MVal → BCall
  | getAllC : String → BCall
  | updateC : String → String → String → MVal → BCall
  | deleteC : String → String → BCall
  | deleteAllC : String → BCall
  | batchUpdateC : MVal → String → BCall
  | batchDeleteC : MVal → String → BCall

/-- Ambient state of one tool call: the two context variables, the memory
client (None when initialization failed), the user and application rows
produced by `get_user_and_app` (primary keys and active flag; their
get-or-create round trip lives in the relational layer), the clock, and the
message text a `json.JSONDecodeError` carries for a given malformed input
(CPython detail kept abstract). -/
structure ToolEnv where
  uid : Option String
  clientName : Option String
  client : Option Client
  userPk : Nat
  appPk : Nat
  appActive : Bool
  now : Nat
  jsonErrText : String → String

/-- Truthiness of a context variable holding an optional string
(`user_id_var.get(None)` followed by `if not uid`). -/
def ctxPresent (o : Option String) : Bool :=
  match o with
  | some s => !(s = "")
  | none => false

/-- Result of one tool call: the string returned to the caller, the store
after the call, and the backend invocations made. -/
def ToolOut : Type := String × DbState × List BCall

/-- Python `result["event"] in ["ADD", "UPDATE"]`: string equality against
the two write events, false for any non-string value. -/
def isWriteEvent : MVal → Bool
  | .pystr s => s = "ADD" || s = "UPDATE"
  | _ => false

/-- Shadow synchronization performed by `add_memories` on a dict response
with a `results` list: every ADD or UPDATE event is replayed into the local
`Memory` table together with a history entry.  A malformed result entry
(missing or non-string id, unparsable id, missing event or memory field)
raises out of the loop (`Except.error`). -/
def applyAddResults (env : ToolEnv) (db : DbState) : List MVal → Except String DbState
  | [] => .ok db
  | r :: rest =>
    match r with
    | .pydict rd =>
      match dictGet rd "id" with
      | some (.pystr s) =>
        match parseUUID s with
        | none => .error "badly formed hexadecimal UUID string"
        | some u =>
          match dictGet rd "event" with
          | none => .error "KeyError: event"
          | some ev =>
            if isWriteEvent ev then
              match dictGet rd "memory" with
              | some (.pystr content) =>
                match lookupShadow db u with
                | none =>
                  let nrec : MemRec := ⟨env.userPk, env.appPk, content, .active, none⟩
                  let db1 := { db with shadow := db.shadow ++ [(u, nrec)] }
                  let db2 := { db1 with
                    histEvents := db1.histEvents ++ [⟨u, env.userPk, some .active, .active⟩] }
                  applyAddResults env db2 rest
                | some rec =>
                  let db1 := setShadow db u { rec with content := content }
                  let db2 := { db1 with
                    histEvents := db1.histEvents ++ [⟨u, env.userPk, some rec.state, .active⟩] }
                  applyAddResults env db2 rest
              | _ => .error "KeyError: memory"
            else applyAddResults env db rest
      | _ => .error "badly formed hexadecimal UUID string"
    | _ => .error "TypeError"

/-- Model of `add_memories`: identity precondition, client availability, paused-app
gate, metadata JSON parsing, metadata merge, the backend add, the local
shadow replay, and the serialized reply. -/
def add_memories (env : ToolEnv) (db : DbState) (text : String) (metadata : String)
    (infer : Bool) : ToolOut :=
  if !(ctxPresent env.uid && ctxPresent env.clientName) then
    ("Error: user_id and client_name are required", db, [])
  else
    let uid := env.uid.getD ""
    let cn := env.clientName.getD ""
    match env.client with
    | none => ("Error: Memory system is currently unavailable. Please try again later.", db, [])
    | some mc =>
      if !env.appActive then
        ("Error: App " ++ cn ++ " is currently paused. Cannot create new memories.", db, [])
      else
        match parseJson metadata with
        | none => ("Error parsing JSON parameters: " ++ env.jsonErrText metadata, db, [])
        | some md =>
          match md with
          | .pydict mdd =>
            let finalMeta : MVal := .pydict (dictUpdate
              [("source_app", .pystr "openmemory"), ("mcp_client", .pystr cn)] mdd)
            let calls := [BCall.addC text uid finalMeta infer]
            match mc.addM text uid finalMeta infer with
            | .err e => ("Error adding memory: " ++ e, db, calls)
            | .ok v =>
              match v with
              | .pynone =>
                ("Warning: Memory add operation completed but returned no response", db, calls)
              | .pydict vd =>
                match dictGet vd "results" with
                | some (.pylist rs) =>
                  match applyAddResults env db rs with
                  | .error e => ("Error adding memory: " ++ e, db, calls)
                  | .ok db2 => (dumps (.pydict vd), db2, calls)
                | some (.pystr s) =>
                  if s = "" then (dumps (.pydict vd), db, calls)
                  else ("Error adding memory: TypeError", db, calls)
                | some (.pydict rd2) =>
                  if rd2.isEmpty then (dumps (.pydict vd), db, calls)
                  else ("Error adding memory: TypeError", db, calls)
                | some _ => ("Error adding memory: TypeError", db, calls)
                | none => (dumps (.pydict vd), db, calls)
              | other => (pyStr other, db, calls)
          | _ => ("Error adding memory: TypeError", db, [])

/-- The None guard applied to a search or get_all reply: a None result is
treated as the empty list. -/
def noneToEmptyList (v : MVal) : MVal :=
  match v with
  | .pynone => .pylist []
  | w => w

/-- Model of `search_memory`: identity precondition, client availability, filters JSON
parsing, the backend search (filters passed only when truthy), None handling,
access filtering, audit logging for a non-empty accepted id list, and the
serialized accessible records. -/
def search_memory (env : ToolEnv) (db : DbState) (query : String) (limit : Nat)
    (filters : String) : ToolOut :=
  if !(ctxPresent env.uid && ctxPresent env.clientName) then
    ("Error: user_id and client_name are required", db, [])
  else
    let uid := env.uid.getD ""
    match env.client with
    | none => ("Error: Memory system is currently unavailable. Please try again later.", db, [])
    | some mc =>
      match parseJson filters with
      | none => ("Error parsing filters JSON: " ++ env.jsonErrText filters, db, [])
      | some fd =>
        let fopt := if truthy fd then some fd else none
        let calls := [BCall.searchC query uid limit fopt]
        match mc.searchM query uid limit fopt with
        | .err e => ("Error searching memory: " ++ e, db, calls)
        | .ok v0 =>
          let far := filter_accessible_memories db (noneToEmptyList v0) uid env.appPk
          if far.2.isEmpty then (dumps (.pylist far.1), db, calls)
          else
            match log_memory_access db far.2 env.appPk "search"
              (.pydict [("query", .pystr query),
                        ("results_count", .pynum (toString far.1.length))]) with
            | .error e => ("Error searching memory: " ++ e, db, calls)
            | .ok db2 => (dumps (.pylist far.1), db2, calls)

/-- Model of `list_memories`: same pipeline as `search_memory` over `get_all`. -/
def list_memories (env : ToolEnv) (db : DbState) : ToolOut :=
  if !(ctxPresent env.uid && ctxPresent env.clientName) then
    ("Error: user_id and client_name are required", db, [])
  else
    let uid := env.uid.getD ""
    match env.client with
    | none => ("Error: Memory system is currently unavailable. Please try again later.", db, [])
    | some mc =>
      let calls := [BCall.getAllC uid]
      match mc.getAllM uid with
      | .err e => ("Error listing memories: " ++ e, db, calls)
      | .ok v0 =>
        let far := filter_accessible_memories db (noneToEmptyList v0) uid env.appPk
        if far.2.isEmpty then (dumps (.pylist far.1), db, calls)
        else
          match log_memory_access db far.2 env.appPk "list"
            (.pydict [("total_count", .pynum (toString far.1.length))]) with
          | .error e => ("Error listing memories: " ++ e, db, calls)
          | .ok db2 => (dumps (.pylist far.1), db2, calls)

/-- Mark one shadow record deleted and append its history entry; the
recorded old state is hard-coded to active by the source. -/
def markDeleted (env : ToolEnv) (db : DbState) (u : Nat) (rec : MemRec) : DbState :=
  { setShadow db u { rec with state := .deleted, deletedAt := some env.now } with
    histEvents := db.histEvents ++ [⟨u, env.userPk, some .active, .deleted⟩] }

/-- The accessible shadow ids computed by `delete_all_memories`: every shadow
record of the calling user that passes the authorization predicate. -/
def accessibleShadowIds (env : ToolEnv) (db : DbState) : List Nat :=
  (db.shadow.filter (fun p => p.2.userPk = env.userPk && db.access p.1 p.2 env.appPk)).map
    (fun p => p.1)

/-- Model of `delete_all_memories`: collect the accessible shadow ids, call the
backend delete_all, replay the deletions into the shadow table, audit-log
when at least one id was touched, and report the accessible count. -/
def delete_all_memories (env : ToolEnv) (db : DbState) : ToolOut :=
  if !(ctxPresent env.uid && ctxPresent env.clientName) then
    ("Error: user_id and client_name are required", db, [])
  else
    let uid := env.uid.getD ""
    match env.client with
    | none => ("Error: Memory system is currently unavailable. Please try again later.", db, [])
    | some mc =>
      let ids := accessibleShadowIds env db
      let calls := [BCall.deleteAllC uid]
      match mc.deleteAllM uid with
      | .err e => ("Error deleting memories: " ++ e, db, calls)
      | .ok _ =>
        let db2 := ids.foldl (fun acc u =>
          match lookupShadow acc u with
          | some rec => markDeleted env acc u rec
          | none => acc) db
        if ids.isEmpty then
          ("Successfully deleted " ++ toString ids.length ++ " accessible memories", db2, calls)
        else
          match log_memory_access db2 ids env.appPk "delete_all"
            (.pydict [("operation", .pystr "bulk_delete"),
                      ("count", .pynum (toString ids.length))]) with
          | .error e => ("Error deleting memories: " ++ e, db, calls)
          | .ok db3 =>
            ("Successfully deleted " ++ toString ids.length ++ " accessible memories", db3, calls)

/-- Model of `delete_memory`: call the backend delete, then best-effort local shadow
replay — an unparsable id or an id absent from the shadow table skips the
replay (and its audit event) silently — and report success whenever the
backend call and any attempted audit write did not raise. -/
def delete_memory (env : ToolEnv) (db : DbState) (memory_id : String) : ToolOut :=
  if !(ctxPresent env.uid && ctxPresent env.clientName) then
    ("Error: user_id and client_name are required", db, [])
  else
    let uid := env.uid.getD ""
    match env.client with
    | none => ("Error: Memory system is currently unavailable. Please try again later.", db, [])
    | some mc =>
      let calls := [BCall.deleteC memory_id uid]
      match mc.deleteM memory_id uid with
      | .err e => ("Error deleting memory: " ++ e, db, calls)
      | .ok _ =>
        match parseUUID memory_id with
        | none => ("Successfully deleted memory " ++ memory_id, db, calls)
        | some u =>
          match lookupShadow db u with
          | none => ("Successfully deleted memory " ++ memory_id, db, calls)
          | some rec =>
            let db2 := markDeleted env db u rec
            match log_memory_access db2 [u] env.appPk "delete"
              (.pydict [("operation", .pystr "delete_single")]) with
            | .error e => ("Error deleting memory: " ++ e, db, calls)
            | .ok db3 => ("Successfully deleted memory " ++ memory_id, db3, calls)

/-- Model of `update_memory`: a malformed metadata argument is silently replaced by
the empty dictionary before the backend update is attempted; a None reply
maps to a not-found message; a parsable id is audit-logged. -/
def update_memory (env : ToolEnv) (db : DbState) (memory_id : String) (text : String)
    (metadata : String) : ToolOut :=
  if !(ctxPresent env.uid && ctxPresent env.clientName) then
    ("Error: user_id and client_name are required", db, [])
  else
    let uid := env.uid.getD ""
    match env.client with
    | none => ("Error: Memory system is currently unavailable. Please try again later.", db, [])
    | some mc =>
      let md := (parseJson metadata).getD (.pydict [])
      let calls := [BCall.updateC memory_id text uid md]
      match mc.updateM memory_id text uid md with
      | .err e => ("Error updating memory: " ++ e, db, calls)
      | .ok v =>
        match v with
        | .pynone =>
          ("Memory with ID " ++ memory_id ++ " not found or could not be updated", db, calls)
        | w =>
          match parseUUID memory_id with
          | none => (dumps w, db, calls)
          | some u =>
            match log_memory_access db [u] env.appPk "update"
              (.pydict [("operation", .pystr "update_memory"),
                        ("text_length", .pynum (toString text.length))]) with
            | .error e => ("Error updating memory: " ++ e, db, calls)
            | .ok db2 => (dumps w, db2, calls)

/-- The id-collection loop of `batch_update_memories`: dict entries with a
string `memory_id` contribute when the id parses and are skipped when it
does not; a dict entry with a non-string id, or a non-dict entry whose
membership test or indexing raises, aborts the loop with a `TypeError`. -/
def collectBatchIds : List MVal → Except String (List Nat)
  | [] => .ok []
  | e :: rest =>
    match e with
    | .pydict d =>
      match dictGet d "memory_id" with
      | some (.pystr s) =>
        match parseUUID s with
        | some u =>
          match collectBatchIds rest with
          | .ok l => .ok (u :: l)
          | .error e2 => .error e2
        | none => collectBatchIds rest
      | some _ => .error "TypeError"
      | none => collectBatchIds rest
    | other =>
      match pyInId "memory_id" other with
      | some true => .error "TypeError"
      | some false => collectBatchIds rest
      | none => .error "TypeError"

/-- Model of `batch_update_memories`: parse the updates JSON (array required), call
the backend batch update, then audit-log the parsable ids of the updates. -/
def batch_update_memories (env : ToolEnv) (db : DbState) (updates_json : String) : ToolOut :=
  if !(ctxPresent env.uid && ctxPresent env.clientName) then
    ("Error: user_id and client_name are required", db, [])
  else
    let uid := env.uid.getD ""
    match env.client with
    | none => ("Error: Memory system is currently unavailable. Please try again later.", db, [])
    | some mc =>
      match parseJson updates_json with
      | none => ("Error parsing updates JSON: " ++ env.jsonErrText updates_json, db, [])
      | some v =>
        match v with
        | .pylist ups =>
          let calls := [BCall.batchUpdateC (.pylist ups) uid]
          match mc.batchUpdateM (.pylist ups) uid with
          | .err e => ("Error in batch update: " ++ e, db, calls)
          | .ok r =>
            match r with
            | .pynone => ("Batch update completed (returned None)", db, calls)
            | w =>
              match collectBatchIds ups with
              | .error e => ("Error in batch update: " ++ e, db, calls)
              | .ok ids =>
                if ids.isEmpty then (dumps w, db, calls)
                else
                  match log_memory_access db ids env.appPk "batch_update"
                    (.pydict [("operation", .pystr "batch_update"),
                              ("count", .pynum (toString ids.length))]) with
                  | .error e => ("Error in batch update: " ++ e, db, calls)
                  | .ok db2 => (dumps w, db2, calls)
        | _ => ("Error: updates must be a JSON array", db, [])

/-- The local-deletion loop of `batch_delete_memories`: each string id that
parses and is present in the shadow table is marked deleted and collected;
an unparsable string id is skipped; a non-string entry raises a
non-ValueError out of the loop. -/
def batchDeleteLocal (env : ToolEnv) (db : DbState) :
    List MVal → Except String (DbState × List Nat)
  | [] => .ok (db, [])
  | e :: rest =>
    match e with
    | .pystr s =>
      match parseUUID s with
      | none => batchDeleteLocal env db rest
      | some u =>
        match lookupShadow db u with
        | none => batchDeleteLocal env db rest
        | some rec =>
          match batchDeleteLocal env (markDeleted env db u rec) rest with
          | .ok (db2, l) => .ok (db2, u :: l)
          | .error e2 => .error e2
    | _ => .error "TypeError"

/-- Model of `batch_delete_memories`: parse the ids JSON (array required), call the
backend batch delete, replay local deletions, audit-log the valid ids, and
report the count of locally deleted records. -/
def batch_delete_memories (env : ToolEnv) (db : DbState) (memory_ids_json : String) : ToolOut :=
  if !(ctxPresent env.uid && ctxPresent env.clientName) then
    ("Error: user_id and client_name are required", db, [])
  else
    let uid := env.uid.getD ""
    match env.client with
    | none => ("Error: Memory system is currently unavailable. Please try again later.", db, [])
    | some mc =>
      match parseJson memory_ids_json with
      | none => ("Error parsing memory_ids JSON: " ++ env.jsonErrText memory_ids_json, db, [])
      | some v =>
        match v with
        | .pylist ids =>
          let calls := [BCall.batchDeleteC (.pylist ids) uid]
          match mc.batchDeleteM (.pylist ids) uid with
          | .err e => ("Error in batch delete: " ++ e, db, calls)
          | .ok _ =>
            match batchDeleteLocal env db ids with
            | .error e => ("Error in batch delete: " ++ e, db, calls)
            | .ok (db2, valid) =>
              if valid.isEmpty then
                ("Successfully batch deleted " ++ toString valid.length ++ " memories", db2, calls)
              else
                match log_memory_access db2 valid env.appPk "batch_delete"
                  (.pydict [("operation", .pystr "batch_delete"),
                            ("count", .pynum (toString valid.length))]) with
                | .error e => ("Error in batch delete: " ++ e, db, calls)
                | .ok db3 =>
                  ("Successfully batch deleted " ++ toString valid.length ++ " memories", db3, calls)
        | _ => ("Error: memory_ids must be a JSON array", db, [])

end Mem0

namespace Mem0

/-! ## SSE session handler (mcp_server_optimized.py lines 416-478) -/

/-- Global state observed by `handle_sse`: the active-connection set, the two
context variables, and the connection counter. -/
structure SseState where
  active : List String
  userVar : Option String
  clientVar : Option String
  counter : Nat

/-- How the body of one SSE session run ends: normal completion, the tolerated
initialization-timing RuntimeError, another RuntimeError, an MCP server
exception, an exception during stream setup or handling, or an asyncio
cancellation (a BaseException, absorbed by no except clause but still passing
through the finally clause). -/
inductive RunOutcome where
  | normal : RunOutcome
  | runtimeInitTiming : RunOutcome
  | runtimeOther : String → RunOutcome
  | mcpFailure : String → RunOutcome
  | sseFailure : String → RunOutcome
  | cancelled : RunOutcome

/-- Python `str()` of an optional path parameter inside an f-string. -/
def pyOptStr : Option String → String
  | some s => s
  | none => "None"

/-- Python `set.add`. -/
def sadd (l : List String) (x : String) : List String :=
  if l.contains x then l else l ++ [x]

/-- Python `set.discard`. -/
def sdiscard (l : List String) (x : String) : List String :=
  l.filter (fun y => !(y = x))

/-- The connection identifier generated for the next SSE connection. -/
def sseConnId (st : SseState) (uid clientName : Option String) : String :=
  pyOptStr clientName ++ ":" ++ pyOptStr uid ++ ":" ++ toString (st.counter + 1)

/-- Model of `handle_sse`: bump the counter, save the context-variable tokens and bind
the identity, enter the try block (track the connection, establish the
stream, run the MCP session; RuntimeError and Exception are absorbed by the
except clauses, a cancellation escapes), then run the finally clause on every
exit path: discard the connection id and reset both context variables to
their saved tokens.  The boolean reports whether an exception escapes the
handler (only for cancellation). -/
def handle_sse (st : SseState) (uid clientName : Option String) (outcome : RunOutcome) :
    SseState × Bool :=
  let ctr := st.counter + 1
  let connId := sseConnId st uid clientName
  let userToken := st.userVar
  let clientToken := st.clientVar
  let st1 : SseState := ⟨st.active, some (uid.getD ""), some (clientName.getD ""), ctr⟩
  let st2 : SseState := { st1 with active := sadd st1.active connId }
  let escaped := match outcome with
    | .cancelled => true
    | _ => false
  let st3 : SseState := ⟨sdiscard st2.active connId, userToken, clientToken, st2.counter⟩
  (st3, escaped)

/-! ## Concrete fixtures used by witnesses and counterexamples -/

/-- A raw `add` backend that always returns None. -/
def noneAddBackend : AddBackend := fun _ _ => .ok .pynone

/-- A raw `add` backend that always raises a JSON-classified error. -/
def jErrBackend : AddBackend := fun _ _ => .err "JSON parse failure"

/-- A raw `add` backend that returns a bare dict without results key. -/
def okDictAddBackend : AddBackend := fun _ _ => .ok (.pydict [("results", .pylist [])])

/-- A keyword-argument backend method that always raises. -/
def failingKwBackend : List (String × MVal) → Outcome := fun _ => .err "boom"

/-- Key-presence test lifted to an `MVal`. -/
def hasKeyV : MVal → String → Bool
  | .pydict d, k => hasKey d k
  | _, _ => false

/-- The calls made by the fallback chain of `add` (strategies 2-5) once the
caller metadata has been unpacked to `md`, in order. -/
def fallbackCallsOf (text : String) (kwargs md : List (String × MVal)) : List AddCall :=
  [⟨text, fb1Kwargs kwargs⟩, ⟨text, fb2Kwargs kwargs⟩, ⟨text, fb3Kwargs kwargs md⟩,
   ⟨fb4Text text, fb4Kwargs kwargs⟩]

/-- Whether one fallback attempt fails: the backend raises, or its reply is
not a truthy dict. -/
def attemptFails (backend : AddBackend) (c : AddCall) : Bool :=
  match backend c.text c.kwargs with
  | .err _ => true
  | .ok v => !(truthy v && isDictV v)

/-- Whether the emergency direct-storage attempt fails: the backend raises,
or its reply is falsy. -/
def emergencyFails (backend : AddBackend) (text : String)
    (kwargs : List (String × MVal)) : Bool :=
  match backend text (emergencyKwargs text kwargs) with
  | .err _ => true
  | .ok v => !truthy v

/-- A fixed 32-hex-digit UUID string with value 1. -/
def uuid1s : String := "00000000000000000000000000000001"

/-- A fixed candidate record carrying `uuid1s`. -/
def cRecord : MVal := .pydict [("id", .pystr uuid1s), ("memory", .pystr "hello")]

/-- A shadow record owned by user 1 and application 2. -/
def rec1 : MemRec := ⟨1, 2, "hello", .active, none⟩

/-- A store whose audit commit fails, holding `rec1` under id 1 and granting
every access. -/
def dbAuditFail : DbState :=
  { userResolves := fun _ => true, shadow := [(1, rec1)], audits := [], histEvents := [],
    access := fun _ _ _ => true, auditCommitFails := true }

/-- The same store with a working audit commit. -/
def dbOk : DbState := { dbAuditFail with auditCommitFails := false }

/-- A memory client whose search and get_all return one envelope holding
`cRecord`, whose update echoes an id dict, and whose other methods return
benign values. -/
def fixedClient : Client :=
  { addM := fun _ _ _ _ => .ok (.pydict [("results", .pylist [])]),
    searchM := fun _ _ _ _ => .ok (.pydict [("results", .pylist [cRecord])]),
    getAllM := fun _ => .ok (.pydict [("results", .pylist [cRecord])]),
    updateM := fun _ _ _ _ => .ok (.pydict [("id", .pystr uuid1s)]),
    deleteM := fun _ _ => .ok .pynone,
    deleteAllM := fun _ => .ok .pynone,
    batchUpdateM := fun _ _ => .ok (.pystr "done"),
    batchDeleteM := fun _ _ => .ok .pynone }

/-- A cooperative tool environment around a given client: identity present,
application active, user primary key 1, application primary key 2. -/
def okEnv (mc : Client) : ToolEnv :=
  { uid := some "u1", clientName := some "app1", client := some mc, userPk := 1, appPk := 2,
    appActive := true, now := 7, jsonErrText := fun _ => "Expecting value: line 1 column 1 (char 0)" }

/-- A small SSE state fixture with one unrelated live connection. -/
def sseSt0 : SseState := ⟨["keep"], some "prev", none, 41⟩

end Mem0

namespace Mem0

/-! ## Helper lemmas -/

/-- Setting a key makes it present. -/
theorem dictGet_dictSet_self (d : List (String × MVal)) (k : String) (v : MVal) :
    dictGet (dictSet d k v) k = some v := by
  induction d with
  | nil => simp [dictSet, dictGet]
  | cons p rest ih =>
    obtain ⟨k2, w⟩ := p
    by_cases h : k2 = k
    · simp [dictSet, h, dictGet]
    · simp [dictSet, h, dictGet, ih]

/-- Setting one key leaves other keys unchanged. -/
theorem dictGet_dictSet_ne (d : List (String × MVal)) (k k2 : String) (v : MVal)
    (h : k2 ≠ k) : dictGet (dictSet d k2 v) k = dictGet d k := by
  induction d with
  | nil => simp [dictSet, dictGet, h]
  | cons p rest ih =>
    obtain ⟨k3, w⟩ := p
    by_cases h3 : k3 = k2
    · subst h3
      simp [dictSet, dictGet, h]
    · simp [dictSet, h3, dictGet, ih]

/-- The normalized add result always carries the `results` key. -/
theorem normalize_has_results (d : List (String × MVal)) :
    hasKey (normalizeAddResult d) "results" = true := by
  unfold normalizeAddResult
  by_cases hr : hasKey d "results" = true
  · rw [if_pos hr]
    by_cases hl : hasKey d "relations" = true
    · rw [if_pos hl]
      exact hr
    · rw [if_neg hl]
      unfold hasKey at hr ⊢
      rw [dictGet_dictSet_ne _ _ _ _ (by decide)]
      exact hr
  · rw [if_neg hr]
    by_cases hl : hasKey (dictSet d "results" (.pylist [])) "relations" = true
    · rw [if_pos hl]
      unfold hasKey
      rw [dictGet_dictSet_self]
      rfl
    · rw [if_neg hl]
      unfold hasKey
      rw [dictGet_dictSet_ne _ _ _ _ (by decide), dictGet_dictSet_self]
      rfl

/-- The normalized add result always carries the `relations` key. -/
theorem normalize_has_relations (d : List (String × MVal)) :
    hasKey (normalizeAddResult d) "relations" = true := by
  unfold normalizeAddResult
  by_cases hr : hasKey d "results" = true
  · rw [if_pos hr]
    by_cases hl : hasKey d "relations" = true
    · rw [if_pos hl]
      exact hl
    · rw [if_neg hl]
      unfold hasKey
      rw [dictGet_dictSet_self]
      rfl
  · rw [if_neg hr]
    by_cases hl : hasKey (dictSet d "results" (.pylist [])) "relations" = true
    · rw [if_pos hl]
      exact hl
    · rw [if_neg hl]
      unfold hasKey
      rw [dictGet_dictSet_self]
      rfl

/-! ## C6, C7: ResponseRepair -/

/-- C6: for every input string, the response-repair function returns (it is a
total function), and its return value is a string accepted by the JSON
parser — repair guarantees shape validity of its output on all inputs. -/
theorem repair_always_valid_json (s : String) :
    jsonValid (fix_llm_response s) = true := by
  unfold fix_llm_response
  split
  · rfl
  · split
    · rfl
    · split
      · assumption
      · split
        · assumption
        · rfl

/-- C7: every input that is empty or whitespace-only — including inputs whose
content is empty after the strip and fence-marker removal — produces exactly
the canonical empty result string. -/
theorem repair_blank_canonical (s : String) (h : cleaned s = "") :
    fix_llm_response s = canonicalEmpty := by
  unfold fix_llm_response
  by_cases ht : strTrim s = ""
  · simp [ht]
  · simp [ht, h]

theorem repair_blank_canonical_w :
    fix_llm_response "```json\n```" = canonicalEmpty ∧ fix_llm_response "  " = canonicalEmpty :=
  ⟨repair_blank_canonical "```json\n```" (by decide), repair_blank_canonical "  " (by decide)⟩

/-! ## C9: None reply from the backend add -/

/-- C9: when the wrapped backend add returns None on the direct attempt, the
resilient add raises an exception whose message is
"Memory client returned None"; that message matches no parse-failure
signature, so the fallback chain is not attempted — the backend is called
exactly once. -/
theorem add_none_reply_raises (backend : AddBackend) (text : String)
    (kwargs : List (String × MVal)) (h : backend text kwargs = .ok .pynone) :
    ResilientMemoryClient.add backend text kwargs
      = (.err "Memory client returned None", [⟨text, kwargs⟩]) := by
  unfold ResilientMemoryClient.add
  rw [h]
  rfl

theorem add_none_reply_raises_w :
    ResilientMemoryClient.add noneAddBackend "hi" []
      = (.err "Memory client returned None", [⟨"hi", []⟩]) :=
  add_none_reply_raises noneAddBackend "hi" [] rfl

end Mem0

namespace Mem0

/-! ## C4: error classification and the fallback chain of add -/

/-- A failing fallback attempt makes `tryFallback` return none. -/
theorem attemptFails_none (backend : AddBackend) (t : String) (kw : List (String × MVal))
    (h : attemptFails backend ⟨t, kw⟩ = true) : tryFallback backend t kw = none := by
  unfold attemptFails at h
  unfold tryFallback
  cases hb : backend t kw with
  | err e => rfl
  | ok v =>
    rw [hb] at h
    cases v with
    | pydict d =>
      have ht : truthy (.pydict d) = false := by
        simp [isDictV] at h
        exact h
      simp [ht]
    | pynone => rfl
    | pybool b => rfl
    | pynum s => rfl
    | pystr s => rfl
    | pylist l => rfl

/-- A failing emergency attempt makes `tryEmergency` return none. -/
theorem emergencyFails_none (backend : AddBackend) (text : String)
    (kwargs : List (String × MVal)) (h : emergencyFails backend text kwargs = true) :
    tryEmergency backend text kwargs = none := by
  unfold emergencyFails at h
  unfold tryEmergency
  cases hb : backend text (emergencyKwargs text kwargs) with
  | err e => rfl
  | ok v =>
    rw [hb] at h
    simp at h
    simp [h]

/-- A non-mapping caller metadata raises TypeError out of the eager
strategy-list construction, before any fallback attempt. -/
theorem fallbackChain_nonmapping (backend : AddBackend) (text : String)
    (kwargs : List (String × MVal)) (calls : List AddCall)
    (hm : callerMetadata kwargs = none) :
    fallbackChain backend text kwargs calls = (.err notMappingErr, calls) := by
  simp only [fallbackChain, hm]

/-- Once the caller metadata unpacks, the fallback chain never raises: its
outcome is always a returned value. -/
theorem fallbackChain_never_raises (backend : AddBackend) (text : String)
    (kwargs md : List (String × MVal)) (calls : List AddCall)
    (hm : callerMetadata kwargs = some md) :
    ∃ v, (fallbackChain backend text kwargs calls).1 = .ok v := by
  simp only [fallbackChain, hm]
  cases h1 : tryFallback backend text (fb1Kwargs kwargs) with
  | some v => exact ⟨v, rfl⟩
  | none =>
    cases h2 : tryFallback backend text (fb2Kwargs kwargs) with
    | some v => exact ⟨v, rfl⟩
    | none =>
      cases h3 : tryFallback backend text (fb3Kwargs kwargs md) with
      | some v => exact ⟨v, rfl⟩
      | none =>
        cases h4 : tryFallback backend (fb4Text text) (fb4Kwargs kwargs) with
        | some v => exact ⟨v, rfl⟩
        | none =>
          cases h5 : tryEmergency backend text kwargs with
          | some v => exact ⟨v, rfl⟩
          | none => exact ⟨diagnosticResult text kwargs, rfl⟩

/-- When the metadata unpacks and every fallback strategy and the emergency
attempt fail, the chain returns the diagnostic ultimate fallback, having
tried all five calls. -/
theorem fallbackChain_exhausted (backend : AddBackend) (text : String)
    (kwargs md : List (String × MVal)) (calls : List AddCall)
    (hm : callerMetadata kwargs = some md)
    (h : ∀ c ∈ fallbackCallsOf text kwargs md, attemptFails backend c = true)
    (he : emergencyFails backend text kwargs = true) :
    fallbackChain backend text kwargs calls
      = (.ok (diagnosticResult text kwargs),
         calls ++ fallbackCallsOf text kwargs md ++ [⟨text, emergencyKwargs text kwargs⟩]) := by
  have h1 := attemptFails_none backend text (fb1Kwargs kwargs)
    (h _ (by simp [fallbackCallsOf]))
  have h2 := attemptFails_none backend text (fb2Kwargs kwargs)
    (h _ (by simp [fallbackCallsOf]))
  have h3 := attemptFails_none backend text (fb3Kwargs kwargs md)
    (h _ (by simp [fallbackCallsOf]))
  have h4 := attemptFails_none backend (fb4Text text) (fb4Kwargs kwargs)
    (h _ (by simp [fallbackCallsOf]))
  have h5 := emergencyFails_none backend text kwargs he
  simp only [fallbackChain, hm]
  rw [h1, h2, h3, h4, h5]
  simp [fallbackCallsOf]

/-- Counterexample to C4: with the caller metadata bound to a non-mapping
value, a JSON-classified direct failure does not enter the fallback chain —
the eager strategy-list construction raises TypeError out of add after the
single direct backend call, so add is not raise-free once classified. -/
theorem add_nonmapping_metadata_cex :
    ResilientMemoryClient.add jErrBackend "hello" [("metadata", .pystr "oops")]
      = (.err notMappingErr, [⟨"hello", [("metadata", .pystr "oops")]⟩]) := rfl

/-- C4 amended: when the direct backend attempt of add raises, a message
outside the parse-failure signature set is re-raised unchanged with no
fallback call.  A message matching the signature set leads to the eager
construction of the fallback-strategy list: when the caller-supplied
metadata is present and not a mapping, that construction raises TypeError
before any fallback attempt; otherwise add never raises — the ordered
fallback chain and the emergency attempt are tried and, when every one of
them fails, the call returns the canonical empty result carrying the
diagnostic payload (strategy-exhaustion flag, original text length,
parameter key names). -/
theorem add_fallback_policy (backend : AddBackend) (text : String)
    (kwargs : List (String × MVal)) (msg : String)
    (hdir : backend text kwargs = .err msg) :
    (isJsonError msg = false →
      ResilientMemoryClient.add backend text kwargs = (.err msg, [⟨text, kwargs⟩]))
    ∧ (isJsonError msg = true →
        (callerMetadata kwargs = none →
          ResilientMemoryClient.add backend text kwargs
            = (.err notMappingErr, [⟨text, kwargs⟩]))
        ∧ ∀ md, callerMetadata kwargs = some md →
            (∃ v, (ResilientMemoryClient.add backend text kwargs).1 = .ok v)
            ∧ ((∀ c ∈ fallbackCallsOf text kwargs md, attemptFails backend c = true) →
                emergencyFails backend text kwargs = true →
                ResilientMemoryClient.add backend text kwargs
                  = (.ok (diagnosticResult text kwargs),
                     ⟨text, kwargs⟩ :: (fallbackCallsOf text kwargs md
                       ++ [⟨text, emergencyKwargs text kwargs⟩])))) := by
  constructor
  · intro hn
    simp only [ResilientMemoryClient.add, hdir]
    unfold addExceptHandler
    rw [if_neg (by simp [hn])]
  · intro hy
    constructor
    · intro hm
      simp only [ResilientMemoryClient.add, hdir]
      unfold addExceptHandler
      rw [if_pos hy, fallbackChain_nonmapping backend text kwargs _ hm]
    · intro md hm
      constructor
      · obtain ⟨v, hv⟩ :=
          fallbackChain_never_raises backend text kwargs md [⟨text, kwargs⟩] hm
        refine ⟨v, ?_⟩
        simp only [ResilientMemoryClient.add, hdir]
        unfold addExceptHandler
        rw [if_pos hy]
        exact hv
      · intro hall he
        simp only [ResilientMemoryClient.add, hdir]
        unfold addExceptHandler
        rw [if_pos hy, fallbackChain_exhausted backend text kwargs md _ hm hall he]
        simp

theorem add_fallback_policy_w :
    ResilientMemoryClient.add jErrBackend "hello" []
      = (.ok (diagnosticResult "hello" []),
         ⟨"hello", []⟩ :: (fallbackCallsOf "hello" [] []
           ++ [⟨"hello", emergencyKwargs "hello" []⟩])) :=
  ((((add_fallback_policy jErrBackend "hello" [] "JSON parse failure" rfl).2 rfl).2
      [] rfl).2) (fun _ _ => rfl) rfl

/-! ## C1: operation surface of the resilient wrapper -/

/-- Counterexample to C1: the delete_all operation absorbs an exception by
returning a dict that carries only a message — the `results` and `relations`
keys are not present in its reply. -/
theorem resilient_delete_all_shape_cex :
    ResilientMemoryClient.delete_all failingKwBackend []
      = .pydict [("message", .pystr "Error during deletion: boom")]
    ∧ hasKeyV (ResilientMemoryClient.delete_all failingKwBackend []) "results" = false
    ∧ hasKeyV (ResilientMemoryClient.delete_all failingKwBackend []) "relations" = false :=
  ⟨rfl, rfl, rfl⟩

/-- C1 amended: only add shape-normalizes (dict replies gain the `results`
and `relations` keys); search and get_all absorb every exception into the
canonical empty shaped result but pass successful replies through
unnormalized; delete_all absorbs exceptions into a message-only dict without
those keys; every other operation is delegated to the wrapped client
unchanged, with no error absorption and no normalization. -/
theorem resilient_wrapper_shape_policy
    (addB : AddBackend) (kb : List (String × MVal) → Outcome)
    (text : String) (kwargs : List (String × MVal)) (d : List (String × MVal))
    (v : MVal) (e : String) :
    (addB text kwargs = .ok (.pydict d) →
      (ResilientMemoryClient.add addB text kwargs).1 = .ok (.pydict (normalizeAddResult d))
      ∧ hasKey (normalizeAddResult d) "results" = true
      ∧ hasKey (normalizeAddResult d) "relations" = true)
    ∧ (kb kwargs = .err e →
        ResilientMemoryClient.search kb kwargs = ResilientMemoryClient.emptyShaped
        ∧ ResilientMemoryClient.get_all kb kwargs = ResilientMemoryClient.emptyShaped
        ∧ ResilientMemoryClient.delete_all kb kwargs
            = .pydict [("message", .pystr ("Error during deletion: " ++ e))])
    ∧ (kb kwargs = .ok v →
        ResilientMemoryClient.search kb kwargs = v
        ∧ ResilientMemoryClient.get_all kb kwargs = v
        ∧ ResilientMemoryClient.delete_all kb kwargs = v)
    ∧ ResilientMemoryClient.delegate kb kwargs = kb kwargs := by
  refine ⟨?_, ?_, ?_, rfl⟩
  · intro h
    refine ⟨?_, normalize_has_results d, normalize_has_relations d⟩
    unfold ResilientMemoryClient.add
    rw [h]
  · intro h
    unfold ResilientMemoryClient.search ResilientMemoryClient.get_all
      ResilientMemoryClient.delete_all
    rw [h]
    exact ⟨rfl, rfl, rfl⟩
  · intro h
    unfold ResilientMemoryClient.search ResilientMemoryClient.get_all
      ResilientMemoryClient.delete_all
    rw [h]
    exact ⟨rfl, rfl, rfl⟩

theorem resilient_wrapper_shape_policy_w :
    ResilientMemoryClient.search failingKwBackend [] = ResilientMemoryClient.emptyShaped
    ∧ (ResilientMemoryClient.add okDictAddBackend "t" []).1
        = .ok (.pydict (normalizeAddResult [("results", .pylist [])])) :=
  ⟨((resilient_wrapper_shape_policy okDictAddBackend failingKwBackend "t" [] []
      .pynone "boom").2.1 rfl).1,
   ((resilient_wrapper_shape_policy okDictAddBackend failingKwBackend "t" []
      [("results", .pylist [])] .pynone "boom").1 rfl).1⟩

end Mem0

namespace Mem0

/-! ## C3: access-filter invariants -/

/-- Prepending a candidate can only enlarge the extracted id-string list. -/
theorem mem_filterMap_cons_of (f : MVal → Option String) (m : MVal) (rest : List MVal)
    (s : String) (h : s ∈ rest.filterMap f) : s ∈ (m :: rest).filterMap f := by
  cases hf : f m <;> simp [List.filterMap_cons, hf, h]

/-- Every id accepted by the per-candidate loop is the parsed id of one of
the candidates. -/
theorem filterItems_subset (db : DbState) (appPk : Nat) (req : Bool) :
    ∀ (l : List MVal) (a : List MVal) (ids : List Nat),
      filterItems db appPk req l = .ok (a, ids) →
      ∀ u ∈ ids, ∃ s, s ∈ l.filterMap itemIdStr ∧ parseUUID s = some u := by
  intro l
  induction l with
  | nil =>
    intro a ids h u hu
    simp only [filterItems, Except.ok.injEq, Prod.mk.injEq] at h
    obtain ⟨-, hi⟩ := h
    subst hi
    simp at hu
  | cons m rest ih =>
    intro a ids h u hu
    cases m with
    | pydict d =>
      simp only [filterItems] at h
      cases hid : dictGet d "id" with
      | none =>
        simp only [hid] at h
        obtain ⟨s, hs, hps⟩ := ih a ids h u hu
        exact ⟨s, mem_filterMap_cons_of _ _ _ _ hs, hps⟩
      | some val =>
        cases val with
        | pystr s =>
          simp only [hid] at h
          cases hp : parseUUID s with
          | none =>
            simp only [hp] at h
            obtain ⟨s2, hs2, hps2⟩ := ih a ids h u hu
            exact ⟨s2, mem_filterMap_cons_of _ _ _ _ hs2, hps2⟩
          | some u0 =>
            simp only [hp] at h
            cases hrec : filterItems db appPk req rest with
            | error e =>
              simp only [hrec] at h
              exact Except.noConfusion h
            | ok pr =>
              obtain ⟨a2, ids2⟩ := pr
              simp only [hrec] at h
              by_cases hk : shadowKeep db u0 appPk = true
              · rw [if_pos hk] at h
                obtain ⟨-, hi⟩ := Prod.mk.injEq .. ▸ (Except.ok.injEq .. ▸ h)
                subst hi
                rcases List.mem_cons.mp hu with hu0 | hu2
                · subst hu0
                  refine ⟨s, ?_, hp⟩
                  simp [List.filterMap_cons, itemIdStr, hid]
                · obtain ⟨s2, hs2, hps2⟩ := ih a2 ids2 hrec u hu2
                  exact ⟨s2, mem_filterMap_cons_of _ _ _ _ hs2, hps2⟩
              · rw [if_neg hk] at h
                obtain ⟨-, hi⟩ := Prod.mk.injEq .. ▸ (Except.ok.injEq .. ▸ h)
                subst hi
                obtain ⟨s2, hs2, hps2⟩ := ih a2 ids2 hrec u hu
                exact ⟨s2, mem_filterMap_cons_of _ _ _ _ hs2, hps2⟩
        | pynone =>
          simp only [hid] at h
          exact Except.noConfusion h
        | pybool b =>
          simp only [hid] at h
          exact Except.noConfusion h
        | pynum s0 =>
          simp only [hid] at h
          exact Except.noConfusion h
        | pylist l0 =>
          simp only [hid] at h
          exact Except.noConfusion h
        | pydict d2 =>
          simp only [hid] at h
          exact Except.noConfusion h
    | pynone =>
      simp only [filterItems] at h
      cases req with
      | true =>
        simp only [if_true] at h
        obtain ⟨s, hs, hps⟩ := ih a ids h u hu
        exact ⟨s, mem_filterMap_cons_of _ _ _ _ hs, hps⟩
      | false => simp [pyInId] at h
    | pybool b =>
      simp only [filterItems] at h
      cases req with
      | true =>
        simp only [if_true] at h
        obtain ⟨s, hs, hps⟩ := ih a ids h u hu
        exact ⟨s, mem_filterMap_cons_of _ _ _ _ hs, hps⟩
      | false => simp [pyInId] at h
    | pynum s0 =>
      simp only [filterItems] at h
      cases req with
      | true =>
        simp only [if_true] at h
        obtain ⟨s, hs, hps⟩ := ih a ids h u hu
        exact ⟨s, mem_filterMap_cons_of _ _ _ _ hs, hps⟩
      | false => simp [pyInId] at h
    | pystr s0 =>
      simp only [filterItems] at h
      cases req with
      | true =>
        simp only [if_true] at h
        obtain ⟨s, hs, hps⟩ := ih a ids h u hu
        exact ⟨s, mem_filterMap_cons_of _ _ _ _ hs, hps⟩
      | false =>
        simp only [Bool.false_eq_true, if_false, pyInId] at h
        cases hc : strContains s0 "id" with
        | true =>
          simp only [hc] at h
          exact Except.noConfusion h
        | false =>
          simp only [hc] at h
          obtain ⟨s, hs, hps⟩ := ih a ids h u hu
          exact ⟨s, mem_filterMap_cons_of _ _ _ _ hs, hps⟩
    | pylist l0 =>
      simp only [filterItems] at h
      cases req with
      | true =>
        simp only [if_true] at h
        obtain ⟨s, hs, hps⟩ := ih a ids h u hu
        exact ⟨s, mem_filterMap_cons_of _ _ _ _ hs, hps⟩
      | false =>
        simp only [Bool.false_eq_true, if_false, pyInId] at h
        cases hc : l0.any (fun x => match x with | .pystr s => s = "id" | _ => false) with
        | true =>
          simp only [hc] at h
          exact Except.noConfusion h
        | false =>
          simp only [hc] at h
          obtain ⟨s, hs, hps⟩ := ih a ids h u hu
          exact ⟨s, mem_filterMap_cons_of _ _ _ _ hs, hps⟩

end Mem0

namespace Mem0

/-- Skipping an unparsable head candidate: the loop result over the remaining
candidates is unchanged. -/
theorem filterItems_skip_invalid (db : DbState) (appPk : Nat) (req : Bool)
    (d : List (String × MVal)) (rest : List MVal) (s : String)
    (hid : dictGet d "id" = some (.pystr s)) (hp : parseUUID s = none) :
    filterItems db appPk req (.pydict d :: rest) = filterItems db appPk req rest := by
  simp only [filterItems, hid, hp]

/-- C3: the access filter returns an id set that is a subset of the parsed
ids present in the input candidates; a falsy candidate collection or an
unresolvable caller yields empty outputs; and a candidate whose id does not
parse as a UUID is skipped silently, leaving the rest of the batch intact. -/
theorem access_filter_invariants (db : DbState) (memories : MVal) (uid : String)
    (appPk : Nat) :
    (∀ u ∈ (filter_accessible_memories db memories uid appPk).2,
       ∃ s, s ∈ candidateIdStrs memories ∧ parseUUID s = some u)
    ∧ (truthy memories = false → filter_accessible_memories db memories uid appPk = ([], []))
    ∧ (db.userResolves uid = false → filter_accessible_memories db memories uid appPk = ([], []))
    ∧ (∀ d rest s, dictGet d "id" = some (.pystr s) → parseUUID s = none →
        filter_accessible_memories db (.pylist (.pydict d :: rest)) uid appPk
          = filter_accessible_memories db (.pylist rest) uid appPk) := by
  refine ⟨?_, ?_, ?_, ?_⟩
  · intro u hu
    unfold filter_accessible_memories at hu
    cases hm : truthy memories with
    | false => simp [hm] at hu
    | true =>
      simp only [hm, Bool.not_true, Bool.false_eq_true, if_false] at hu
      cases hr : db.userResolves uid with
      | false => simp [hr] at hu
      | true =>
        simp only [hr, Bool.not_true, Bool.false_eq_true, if_false] at hu
        cases memories with
        | pydict d =>
          cases hres : dictGet d "results" with
          | none => simp [hres] at hu
          | some val =>
            cases val with
            | pylist l =>
              simp only [hres] at hu
              cases hfi : filterItems db appPk false l with
              | error e => simp [hfi] at hu
              | ok r =>
                simp only [hfi] at hu
                obtain ⟨s, hs, hps⟩ :=
                  filterItems_subset db appPk false l r.1 r.2 (by rw [hfi]) u hu
                refine ⟨s, ?_, hps⟩
                simp only [candidateIdStrs, hres]
                exact hs
            | pynone => simp [hres] at hu
            | pybool b => simp [hres] at hu
            | pynum s0 => simp [hres] at hu
            | pystr s0 => simp [hres] at hu
            | pydict d2 => simp [hres] at hu
        | pylist l =>
          cases hfi : filterItems db appPk true l with
          | error e => simp [hfi] at hu
          | ok r =>
            simp only [hfi] at hu
            obtain ⟨s, hs, hps⟩ :=
              filterItems_subset db appPk true l r.1 r.2 (by rw [hfi]) u hu
            refine ⟨s, ?_, hps⟩
            simp only [candidateIdStrs]
            exact hs
        | pynone => simp at hu
        | pybool b => simp at hu
        | pynum s0 => simp at hu
        | pystr s0 => simp at hu
  · intro h
    unfold filter_accessible_memories
    simp [h]
  · intro h
    unfold filter_accessible_memories
    cases hm : truthy memories with
    | false => simp
    | true => simp [h]
  · intro d rest s hid hp
    unfold filter_accessible_memories
    cases hr : db.userResolves uid with
    | false =>
      cases rest with
      | nil => simp [truthy, hr]
      | cons m2 r2 => simp [truthy, hr]
    | true =>
      simp only [hr, truthy, List.isEmpty_cons, Bool.not_false, Bool.not_true,
        Bool.false_eq_true, if_false, if_true]
      rw [filterItems_skip_invalid db appPk true d rest s hid hp]
      cases rest with
      | nil => simp [filterItems]
      | cons m2 r2 => simp

theorem access_filter_invariants_w :
    filter_accessible_memories dbOk (.pylist []) "u1" 2 = ([], [])
    ∧ filter_accessible_memories dbOk (.pylist [.pydict [("id", .pystr "zz")]]) "u1" 2
        = filter_accessible_memories dbOk (.pylist []) "u1" 2 :=
  ⟨(access_filter_invariants dbOk (.pylist []) "u1" 2).2.1 rfl,
   (access_filter_invariants dbOk (.pylist [.pydict [("id", .pystr "zz")]]) "u1" 2).2.2.2
     [("id", .pystr "zz")] [] "zz" rfl rfl⟩

end Mem0

namespace Mem0

/-! ## C8: session cleanup and context-variable reset -/

/-- A discarded element is gone. -/
theorem not_mem_sdiscard_self (l : List String) (x : String) : x ∉ sdiscard l x := by
  simp [sdiscard, List.mem_filter]

/-- Adding then discarding an element leaves every other element untouched. -/
theorem mem_sdiscard_sadd_iff (l : List String) (x c : String) (h : c ≠ x) :
    (c ∈ sdiscard (sadd l x) x ↔ c ∈ l) := by
  unfold sadd sdiscard
  by_cases hc : x ∈ l
  · simp [hc, List.mem_filter, h]
  · simp [hc, List.mem_filter, h]

/-- C8: on every exit path of the SSE handler — normal completion, tolerated
or other RuntimeError, MCP or stream failure, even cancellation — the
generated connection identifier is absent from the active set afterwards,
all other connections are untouched, and both context variables are reset to
their prior tokens. -/
theorem sse_cleanup_every_path (st : SseState) (uid clientName : Option String)
    (outcome : RunOutcome) :
    sseConnId st uid clientName ∉ (handle_sse st uid clientName outcome).1.active
    ∧ (∀ c, c ≠ sseConnId st uid clientName →
        (c ∈ (handle_sse st uid clientName outcome).1.active ↔ c ∈ st.active))
    ∧ (handle_sse st uid clientName outcome).1.userVar = st.userVar
    ∧ (handle_sse st uid clientName outcome).1.clientVar = st.clientVar := by
  refine ⟨?_, ?_, rfl, rfl⟩
  · exact not_mem_sdiscard_self (sadd st.active (sseConnId st uid clientName))
      (sseConnId st uid clientName)
  · intro c hc
    exact mem_sdiscard_sadd_iff st.active (sseConnId st uid clientName) c hc

theorem sse_cleanup_every_path_w :
    ("keep" ∈ (handle_sse sseSt0 (some "u") (some "c") .cancelled).1.active
      ↔ "keep" ∈ sseSt0.active) :=
  (sse_cleanup_every_path sseSt0 (some "u") (some "c") .cancelled).2.1 "keep" (by decide)

/-! ## C10: delete_memory on untracked ids -/

/-- C10: whenever the backend delete call returns, delete_memory reports
its deletion-confirmation string even when the id is not a valid UUID or
matches no record in the local shadow store; in those cases the store is
left completely unchanged (no shadow transition, no history entry, no audit
event) while the caller still sees a deletion confirmation. -/
theorem delete_memory_untracked_success (env : ToolEnv) (db : DbState) (mid : String)
    (mc : Client) (v : MVal)
    (hu : ctxPresent env.uid = true) (hc : ctxPresent env.clientName = true)
    (hcl : env.client = some mc)
    (hb : mc.deleteM mid (env.uid.getD "") = .ok v)
    (hmiss : parseUUID mid = none ∨ ∃ u, parseUUID mid = some u ∧ lookupShadow db u = none) :
    delete_memory env db mid
      = ("Successfully deleted memory " ++ mid, db, [BCall.deleteC mid (env.uid.getD "")]) := by
  rcases hmiss with hp | ⟨u, hp, hl⟩
  · simp [delete_memory, hu, hc, hcl, hb, hp]
  · simp [delete_memory, hu, hc, hcl, hb, hp, hl]

theorem delete_memory_untracked_success_w :
    delete_memory (okEnv fixedClient) dbOk "not-a-uuid"
      = ("Successfully deleted memory not-a-uuid", dbOk, [BCall.deleteC "not-a-uuid" "u1"]) :=
  delete_memory_untracked_success (okEnv fixedClient) dbOk "not-a-uuid" fixedClient .pynone
    rfl rfl rfl rfl (Or.inl (by decide))

end Mem0

namespace Mem0

/-! ## C5: malformed JSON arguments -/

/-- Counterexample to C5: update_memory, given a metadata string that is not
valid JSON, does not fail with a parse-error message — it silently replaces
the metadata by the empty dict, attempts the backend update, and returns the
serialized backend reply. -/
theorem update_memory_malformed_metadata_cex :
    (update_memory (okEnv fixedClient) dbOk uuid1s "new" "not json").2.2
        = [BCall.updateC uuid1s "new" "u1" (.pydict [])]
    ∧ (update_memory (okEnv fixedClient) dbOk uuid1s "new" "not json").1
        = dumps (.pydict [("id", .pystr uuid1s)]) :=
  ⟨rfl, rfl⟩

/-- C5 amended: a malformed JSON argument fails the call with a parse-error
message and no backend attempt for add_memories (metadata), search_memory
(filters), batch_update_memories (updates) and batch_delete_memories (ids);
update_memory alone silently substitutes the empty dict for malformed
metadata and proceeds exactly as if "\x7b\x7d" had been supplied. -/
theorem json_arg_parse_policy (env : ToolEnv) (db : DbState) (mc : Client)
    (hu : ctxPresent env.uid = true) (hc : ctxPresent env.clientName = true)
    (hcl : env.client = some mc) :
    (∀ text meta inf, env.appActive = true → parseJson meta = none →
      add_memories env db text meta inf
        = ("Error parsing JSON parameters: " ++ env.jsonErrText meta, db, []))
    ∧ (∀ q lim f, parseJson f = none →
        search_memory env db q lim f
          = ("Error parsing filters JSON: " ++ env.jsonErrText f, db, []))
    ∧ (∀ uj, parseJson uj = none →
        batch_update_memories env db uj
          = ("Error parsing updates JSON: " ++ env.jsonErrText uj, db, []))
    ∧ (∀ ij, parseJson ij = none →
        batch_delete_memories env db ij
          = ("Error parsing memory_ids JSON: " ++ env.jsonErrText ij, db, []))
    ∧ (∀ mid text meta, parseJson meta = none →
        update_memory env db mid text meta = update_memory env db mid text "\x7b\x7d") := by
  refine ⟨?_, ?_, ?_, ?_, ?_⟩
  · intro text meta inf happ hp
    simp [add_memories, hu, hc, hcl, happ, hp]
  · intro q lim f hp
    simp [search_memory, hu, hc, hcl, hp]
  · intro uj hp
    simp [batch_update_memories, hu, hc, hcl, hp]
  · intro ij hp
    simp [batch_delete_memories, hu, hc, hcl, hp]
  · intro mid text meta hp
    have h2 : parseJson "\x7b\x7d" = some (.pydict []) := rfl
    simp [update_memory, hp, h2]

theorem json_arg_parse_policy_w :
    search_memory (okEnv fixedClient) dbOk "q" 10 "\x7b"
      = ("Error parsing filters JSON: " ++ (okEnv fixedClient).jsonErrText "\x7b", dbOk, []) :=
  (json_arg_parse_policy (okEnv fixedClient) dbOk fixedClient rfl rfl rfl).2.1
    "q" 10 "\x7b" rfl

end Mem0

namespace Mem0

/-! ## C2: audit-write failure policy -/

/-- The local deletion replay of delete_all_memories does not touch the
audit-commit behavior of the store. -/
theorem foldl_markDeleted_audit (env : ToolEnv) (ids : List Nat) (db : DbState) :
    (ids.foldl (fun acc u =>
      match lookupShadow acc u with
      | some rec => markDeleted env acc u rec
      | none => acc) db).auditCommitFails = db.auditCommitFails := by
  induction ids generalizing db with
  | nil => rfl
  | cons i rest ih =>
    rw [List.foldl_cons, ih]
    cases h : lookupShadow db i <;> simp [markDeleted, setShadow]

/-- The local deletion replay of batch_delete_memories does not touch the
audit-commit behavior of the store. -/
theorem batchDeleteLocal_audit (env : ToolEnv) (db : DbState) (ids : List MVal)
    (db2 : DbState) (valid : List Nat)
    (h : batchDeleteLocal env db ids = .ok (db2, valid)) :
    db2.auditCommitFails = db.auditCommitFails := by
  induction ids generalizing db valid with
  | nil =>
    simp only [batchDeleteLocal, Except.ok.injEq, Prod.mk.injEq] at h
    obtain ⟨h1, -⟩ := h
    rw [← h1]
  | cons e rest ih =>
    cases e with
    | pystr s =>
      simp only [batchDeleteLocal] at h
      cases hp : parseUUID s with
      | none =>
        simp only [hp] at h
        exact ih db valid h
      | some u =>
        simp only [hp] at h
        cases hl : lookupShadow db u with
        | none =>
          simp only [hl] at h
          exact ih db valid h
        | some rec =>
          simp only [hl] at h
          cases hr : batchDeleteLocal env (markDeleted env db u rec) rest with
          | error e2 =>
            simp only [hr] at h
            exact Except.noConfusion h
          | ok pr =>
            obtain ⟨dbr, vr⟩ := pr
            simp only [hr, Except.ok.injEq, Prod.mk.injEq] at h
            obtain ⟨h1, -⟩ := h
            subst h1
            have h3 := ih (markDeleted env db u rec) vr hr
            rw [h3]
            simp [markDeleted, setShadow]
    | pynone =>
      simp only [batchDeleteLocal] at h
      exact Except.noConfusion h
    | pybool b =>
      simp only [batchDeleteLocal] at h
      exact Except.noConfusion h
    | pynum s =>
      simp only [batchDeleteLocal] at h
      exact Except.noConfusion h
    | pylist l =>
      simp only [batchDeleteLocal] at h
      exact Except.noConfusion h
    | pydict d =>
      simp only [batchDeleteLocal] at h
      exact Except.noConfusion h

/-- Counterexample to C2: search_memory is a pure-read listing operation,
yet when appending its audit events fails the caller receives the error
string, not the accessible results. -/
theorem search_audit_failure_returns_error_cex :
    (search_memory (okEnv fixedClient) dbAuditFail "q" 10 "\x7b\x7d").1
        = "Error searching memory: audit commit failed"
    ∧ (search_memory (okEnv fixedClient) dbAuditFail "q" 10 "\x7b\x7d").1
        ≠ dumps (.pylist [cRecord]) :=
  ⟨rfl, by decide⟩

/-- C2 amended: when appending the audit events fails, no operation reports
success — the mutating operations (update, delete, delete_all, batch_update,
batch_delete) and also the pure-read listing operations (search, list) all
return an error string to the caller instead of their result. -/
theorem audit_failure_blocks_all_ops (env : ToolEnv) (db : DbState) (mc : Client)
    (hu : ctxPresent env.uid = true) (hc : ctxPresent env.clientName = true)
    (hcl : env.client = some mc) (haf : db.auditCommitFails = true) :
    (∀ q lim f fd v, parseJson f = some fd →
       mc.searchM q (env.uid.getD "") lim (if truthy fd then some fd else none) = .ok v →
       ((filter_accessible_memories db (noneToEmptyList v) (env.uid.getD "")
          env.appPk).2).isEmpty = false →
       (search_memory env db q lim f).1 = "Error searching memory: audit commit failed")
    ∧ (∀ v, mc.getAllM (env.uid.getD "") = .ok v →
       ((filter_accessible_memories db (noneToEmptyList v) (env.uid.getD "")
          env.appPk).2).isEmpty = false →
       (list_memories env db).1 = "Error listing memories: audit commit failed")
    ∧ (∀ mid text meta v u,
        mc.updateM mid text (env.uid.getD "") ((parseJson meta).getD (.pydict [])) = .ok v →
        v ≠ .pynone → parseUUID mid = some u →
        (update_memory env db mid text meta).1 = "Error updating memory: audit commit failed")
    ∧ (∀ mid v rec u, mc.deleteM mid (env.uid.getD "") = .ok v → parseUUID mid = some u →
        lookupShadow db u = some rec →
        (delete_memory env db mid).1 = "Error deleting memory: audit commit failed")
    ∧ (∀ v, mc.deleteAllM (env.uid.getD "") = .ok v →
        (accessibleShadowIds env db).isEmpty = false →
        (delete_all_memories env db).1 = "Error deleting memories: audit commit failed")
    ∧ (∀ uj ups r ids, parseJson uj = some (.pylist ups) →
        mc.batchUpdateM (.pylist ups) (env.uid.getD "") = .ok r → r ≠ .pynone →
        collectBatchIds ups = .ok ids → ids.isEmpty = false →
        (batch_update_memories env db uj).1 = "Error in batch update: audit commit failed")
    ∧ (∀ ij ids v db2 valid, parseJson ij = some (.pylist ids) →
        mc.batchDeleteM (.pylist ids) (env.uid.getD "") = .ok v →
        batchDeleteLocal env db ids = .ok (db2, valid) → valid.isEmpty = false →
        (batch_delete_memories env db ij).1 = "Error in batch delete: audit commit failed") := by
  refine ⟨?_, ?_, ?_, ?_, ?_, ?_, ?_⟩
  · intro q lim f fd v hf hbk hne
    simp [search_memory, hu, hc, hcl, hf, hbk, hne, log_memory_access, haf]
  · intro v hbk hne
    simp [list_memories, hu, hc, hcl, hbk, hne, log_memory_access, haf]
  · intro mid text meta v u hbk hnv hpu
    cases v with
    | pynone => exact absurd rfl hnv
    | pybool b => simp [update_memory, hu, hc, hcl, hbk, hpu, log_memory_access, haf]
    | pynum s => simp [update_memory, hu, hc, hcl, hbk, hpu, log_memory_access, haf]
    | pystr s => simp [update_memory, hu, hc, hcl, hbk, hpu, log_memory_access, haf]
    | pylist l => simp [update_memory, hu, hc, hcl, hbk, hpu, log_memory_access, haf]
    | pydict d => simp [update_memory, hu, hc, hcl, hbk, hpu, log_memory_access, haf]
  · intro mid v rec u hbk hpu hsh
    simp [delete_memory, hu, hc, hcl, hbk, hpu, hsh, log_memory_access, markDeleted,
      setShadow, haf]
  · intro v hbk hne
    have h2 := foldl_markDeleted_audit env (accessibleShadowIds env db) db
    simp [delete_all_memories, hu, hc, hcl, hbk, hne, log_memory_access, h2, haf]
  · intro uj ups r ids hj hbk hnr hcol hne
    cases r with
    | pynone => exact absurd rfl hnr
    | pybool b => simp [batch_update_memories, hu, hc, hcl, hj, hbk, hcol, hne,
        log_memory_access, haf]
    | pynum s => simp [batch_update_memories, hu, hc, hcl, hj, hbk, hcol, hne,
        log_memory_access, haf]
    | pystr s => simp [batch_update_memories, hu, hc, hcl, hj, hbk, hcol, hne,
        log_memory_access, haf]
    | pylist l => simp [batch_update_memories, hu, hc, hcl, hj, hbk, hcol, hne,
        log_memory_access, haf]
    | pydict d => simp [batch_update_memories, hu, hc, hcl, hj, hbk, hcol, hne,
        log_memory_access, haf]
  · intro ij ids v db2 valid hj hbk hloc hne
    have h2 : db2.auditCommitFails = true := by
      have := batchDeleteLocal_audit env db ids db2 valid hloc
      rw [this, haf]
    simp [batch_delete_memories, hu, hc, hcl, hj, hbk, hloc, hne, log_memory_access, h2]

theorem audit_failure_blocks_all_ops_w :
    (delete_memory (okEnv fixedClient) dbAuditFail uuid1s).1
      = "Error deleting memory: audit commit failed" :=
  (audit_failure_blocks_all_ops (okEnv fixedClient) dbAuditFail fixedClient
    rfl rfl rfl rfl).2.2.2.1 uuid1s .pynone rec1 1 rfl rfl rfl

end Mem0
